import Mathlib

/-!
Verification of the PowerPoint heavy-slides analyzer (`pptx_heavy_slides.py`).

This file is a shallow embedding of the analyzer's core functions:
`format_bytes`, `get_image_dimensions`, `analyze_image_optimization`,
`analyze_pptx_media`, `analyze_optimization_opportunities`,
`analyze_slide_masters` and `delete_unused_layouts`.

Modelling conventions:
* The python-pptx / Pillow object model is represented by explicit structures
  (`Shape`, `Slide`, `Layout`, `Master`, `Presentation`).  A picture shape
  carries an optional `ImagePart` (the `None` case models a failed
  `shape.image` extraction, which the source catches, logs and skips); a
  media shape carries its `media_format` truthiness and an optional
  `MediaPart` (the `none` case models a failed part lookup, caught and
  skipped).  Pillow decoding (`Image.open`) is an abstract oracle
  `List Nat → Option PILImage` mapping raw bytes to pixel size and format.
* Python float arithmetic is modelled by exact rational arithmetic (`ℚ`);
  `int(x)` (truncation towards zero) is `truncQ`, and the float literals
  `2.5`, `0.3`, `0.5` are the rationals `5/2`, `3/10`, `1/2`.  Python
  `str.lower` is modelled by the ASCII `strLower`.
* Python's `hash(blob)` deduplication key is modelled by the blob content
  itself (a collision-free hash), as the spec's design notes direct.
* `CPython`'s `id()` identity of layout objects is modelled by an explicit
  `lid : Nat` field; distinct live objects have distinct `id()`s, which
  appears as a `Nodup` hypothesis where it matters.
* Presentation-only fields that require Python float *formatting*
  (`savings_percent`, `details`) are omitted from the optimization record;
  no claim depends on them.
-/

/-- `enumerate(xs, start := i)`: pair each element with its index. -/
def enum1 {α : Type} : Nat → List α → List (Nat × α)
  | _, [] => []
  | i, a :: as => (i, a) :: enum1 (i + 1) as

/-- ASCII model of Python `str.lower()`. -/
def strLower (s : String) : String := String.mk (s.data.map Char.toLower)

/-- `needle ∈ haystack` on character lists (Python's `in` on strings). -/
def listContainsSub (needle hay : List Char) : Bool :=
  hay.tails.any (fun t => needle.isPrefixOf t)

/-- Python `needle in hay` for strings. -/
def strContainsSub (needle hay : String) : Bool :=
  listContainsSub needle.data hay.data

/-- `Path(s).name`: the part of `s` after the last `/`. -/
def pathBasename (s : String) : String :=
  String.mk (s.data.foldl (fun acc c => if c = '/' then [] else acc ++ [c]) [])

/-- Python `int(q)`: truncation of a rational towards zero. -/
def truncQ (q : ℚ) : Int := if 0 ≤ q then ⌊q⌋ else ⌈q⌉

/-! ## Data model (the `TypedDict`s of the source) -/

/-- `MediaItem`: a single media reference on a slide. -/
structure MediaItem where
  type : String
  size_bytes : Nat
  filename : Option String
  content_type : String
  relationship_id : Option String
  shared : Bool
deriving DecidableEq

/-- `SlideMediaStats`: per-slide media statistics. -/
structure SlideMediaStats where
  slide_index : Nat
  slide_title : Option String
  total_media_bytes : Nat
  image_bytes : Nat
  video_bytes : Nat
  audio_bytes : Nat
  other_media_bytes : Nat
  media_items : List MediaItem
deriving DecidableEq

/-- `ImageDimensions`: pixel and display dimensions of an image. -/
structure ImageDimensions where
  pixel_width : Nat
  pixel_height : Nat
  display_width_px : Int
  display_height_px : Int
  resolution_ratio : ℚ
deriving DecidableEq

/-- `OptimizationOpportunity` (without the two float-formatting display
fields `savings_percent` and `details`). -/
structure OptimizationOpportunity where
  slide_index : Nat
  slide_title : Option String
  opportunity_type : String
  current_bytes : Nat
  potential_bytes : Int
  savings_bytes : Int
  current_dimensions : String
  display_dimensions : String
  recommended_dimensions : String
  current_format : String
  recommended_format : String
  severity : String
  is_shared : Bool
deriving DecidableEq

/-- `LayoutMediaStats`: media statistics of one slide layout. -/
structure LayoutMediaStats where
  layout_name : String
  layout_index : Nat
  total_media_bytes : Nat
  image_bytes : Nat
  video_bytes : Nat
  audio_bytes : Nat
  other_media_bytes : Nat
  media_count : Nat
  is_used : Bool
  slides_using : List Nat
deriving DecidableEq

/-- `MasterMediaStats`: media statistics of one slide master. -/
structure MasterMediaStats where
  master_index : Nat
  master_name : Option String
  total_media_bytes : Nat
  image_bytes : Nat
  video_bytes : Nat
  audio_bytes : Nat
  other_media_bytes : Nat
  media_count : Nat
  layouts : List LayoutMediaStats
  total_layout_bytes : Nat
  unused_layout_bytes : Nat
deriving DecidableEq

/-- `MastersReport`: the complete masters/layouts report. -/
structure MastersReport where
  total_masters : Nat
  total_layouts : Nat
  unused_layouts : Nat
  total_master_media_bytes : Nat
  total_layout_media_bytes : Nat
  unused_layout_media_bytes : Nat
  masters : List MasterMediaStats
deriving DecidableEq

/-! ## The package object model -/

/-- The `image` of a picture shape: raw blob, MIME type, original filename. -/
structure ImagePart where
  blob : List Nat
  content_type : String
  filename : Option String
deriving DecidableEq

/-- An embedded audio/video part: package-internal part name, blob, MIME type. -/
structure MediaPart where
  partname : String
  blob : List Nat
  content_type : String
deriving DecidableEq

/-- A shape on a slide, layout or master.  `picture none` / `media _ none`
model a shape whose media bytes could not be extracted (the source logs a
warning and skips the shape). -/
inductive Shape where
  | picture (img : Option ImagePart) (width height : Int)
  | media (media_format : Bool) (part : Option MediaPart)
  | nonMedia
deriving DecidableEq

/-- A slide: its (already extracted) title, the `id()` of the layout object
it references, and its shapes. -/
structure Slide where
  title : Option String
  slide_layout_id : Nat
  shapes : List Shape
deriving DecidableEq

/-- A slide layout.  `lid` is the `id()` of the layout object; `name` is the
raw layout name (`""` models a falsy name). -/
structure Layout where
  lid : Nat
  name : String
  shapes : List Shape
deriving DecidableEq

/-- A slide master. `name` is the raw master name (`""` models a falsy name). -/
structure Master where
  name : String
  shapes : List Shape
  layouts : List Layout
deriving DecidableEq

/-- A parsed presentation. -/
structure Presentation where
  slides : List Slide
  masters : List Master
deriving DecidableEq

/-- What `PIL.Image.open` returns on a decodable blob. -/
structure PILImage where
  width : Nat
  height : Nat
  format : Option String
deriving DecidableEq

/-- The Pillow decoding oracle: `none` models a raised decode exception. -/
def PILDecoder : Type := List Nat → Option PILImage

/-! ## `format_bytes` -/

/-- Round half to even (Python float/`format` rounding of an exact value). -/
def rhe (q : ℚ) : Int :=
  if q - ⌊q⌋ < 1 / 2 then ⌊q⌋
  else if (1 : ℚ) / 2 < q - ⌊q⌋ then ⌊q⌋ + 1
  else if ⌊q⌋ % 2 = 0 then ⌊q⌋ else ⌊q⌋ + 1

/-- Python `f"{q:.1f}"` for a nonnegative rational: one decimal digit. -/
def fmt1 (q : ℚ) : String :=
  let n : Int := rhe (q * 10)
  toString (n / 10) ++ "." ++ toString (n % 10)

/-- `format_bytes`: human-readable byte size.  The source's `for unit in
['B','KB','MB','GB']` loop with early returns is unrolled. -/
def format_bytes (num_bytes : Nat) : String :=
  if num_bytes = 0 then "0.0 MB"
  else if num_bytes < 1024 then toString num_bytes ++ " B"
  else
    let q1 : ℚ := (num_bytes : ℚ) / 1024
    if q1 < 1024 then fmt1 q1 ++ " KB"
    else
      let q2 : ℚ := q1 / 1024
      if q2 < 1024 then fmt1 q2 ++ " MB"
      else fmt1 (q2 / 1024) ++ " GB"

/-! ## `get_image_dimensions` -/

/-- `get_image_dimensions`: pixel size comes from decoding the blob (here
passed in as `pixel_width`/`pixel_height`); display size converts the
shape's EMU extent to pixels at 96 DPI; the resolution ratio falls back to
`1.0` when a display dimension is not positive. -/
def get_image_dimensions (pixel_width pixel_height : Nat)
    (shape_width shape_height : Int) : ImageDimensions :=
  let display_width_px : Int := truncQ ((shape_width : ℚ) / 914400 * 96)
  let display_height_px : Int := truncQ ((shape_height : ℚ) / 914400 * 96)
  let resolution_ratio : ℚ :=
    if 0 < display_width_px ∧ 0 < display_height_px then
      max ((pixel_width : ℚ) / (display_width_px : ℚ))
        ((pixel_height : ℚ) / (display_height_px : ℚ))
    else 1
  { pixel_width := pixel_width, pixel_height := pixel_height,
    display_width_px := display_width_px, display_height_px := display_height_px,
    resolution_ratio := resolution_ratio }

/-! ## `analyze_image_optimization` -/

/-- `analyze_image_optimization`: the four optimization checks, in source
order.  `image_blob_len` is `len(image_blob)`; `img_format` is the Pillow
format of the blob (`Image.open(...).format`). -/
def analyze_image_optimization (image_blob_len : Nat) (img_format : Option String)
    (content_type : String) (dims : ImageDimensions)
    (slide_index : Nat) (slide_title : Option String) (is_shared : Bool) :
    List OptimizationOpportunity :=
  let current_bytes := image_blob_len
  let current_dim_str := toString dims.pixel_width ++ "x" ++ toString dims.pixel_height
  let display_dim_str := toString dims.display_width_px ++ "x" ++ toString dims.display_height_px
  -- 1. Check for oversized resolution (>2.5x display size)
  let ops1 : List OptimizationOpportunity :=
    if (5 : ℚ) / 2 < dims.resolution_ratio then
      let aspect : ℚ := (dims.pixel_width : ℚ) / (dims.pixel_height : ℚ)
      let rw0 : Int := dims.display_width_px * 2
      let rh0 : Int := dims.display_height_px * 2
      let rw : Int := if aspect < (rw0 : ℚ) / (rh0 : ℚ) then truncQ ((rh0 : ℚ) * aspect) else rw0
      let rh : Int := if aspect < (rw0 : ℚ) / (rh0 : ℚ) then rh0 else truncQ ((rw0 : ℚ) / aspect)
      let pixel_reduction : ℚ :=
        ((rw * rh : Int) : ℚ) / ((dims.pixel_width * dims.pixel_height : Nat) : ℚ)
      let potential_bytes : Int := truncQ ((current_bytes : ℚ) * pixel_reduction)
      [{ slide_index := slide_index, slide_title := slide_title,
         opportunity_type := "oversized_resolution",
         current_bytes := current_bytes, potential_bytes := potential_bytes,
         savings_bytes := (current_bytes : Int) - potential_bytes,
         current_dimensions := current_dim_str, display_dimensions := display_dim_str,
         recommended_dimensions := toString rw ++ "x" ++ toString rh,
         current_format := img_format.getD content_type,
         recommended_format := img_format.getD content_type,
         severity := if (5 : ℚ) < dims.resolution_ratio then "high" else "medium",
         is_shared := is_shared }]
    else []
  -- 2. Check for absolute size caps (>3200px on longest edge); suppressed if
  -- an "oversized_resolution" opportunity was already recorded.
  let ops2 : List OptimizationOpportunity :=
    if 3200 < max dims.pixel_width dims.pixel_height then
      let aspect : ℚ := (dims.pixel_width : ℚ) / (dims.pixel_height : ℚ)
      let rw : Int := if dims.pixel_height < dims.pixel_width then 2560 else truncQ ((2560 : ℚ) * aspect)
      let rh : Int := if dims.pixel_height < dims.pixel_width then truncQ ((2560 : ℚ) / aspect) else 2560
      let pixel_reduction : ℚ :=
        ((rw * rh : Int) : ℚ) / ((dims.pixel_width * dims.pixel_height : Nat) : ℚ)
      let potential_bytes : Int := truncQ ((current_bytes : ℚ) * pixel_reduction)
      if ops1.any (fun o => o.opportunity_type == "oversized_resolution") then ops1
      else ops1 ++
        [{ slide_index := slide_index, slide_title := slide_title,
           opportunity_type := "absolute_size",
           current_bytes := current_bytes, potential_bytes := potential_bytes,
           savings_bytes := (current_bytes : Int) - potential_bytes,
           current_dimensions := current_dim_str, display_dimensions := display_dim_str,
           recommended_dimensions := toString rw ++ "x" ++ toString rh,
           current_format := img_format.getD content_type,
           recommended_format := img_format.getD content_type,
           severity := "medium", is_shared := is_shared }]
    else ops1
  -- 3. Check for PNG photos (>1MB)
  let ops3 : List OptimizationOpportunity :=
    if img_format = some "PNG" ∧ 1000000 < current_bytes then
      let potential_bytes : Int := truncQ ((current_bytes : ℚ) * (3 / 10))
      ops2 ++
        [{ slide_index := slide_index, slide_title := slide_title,
           opportunity_type := "png_photo",
           current_bytes := current_bytes, potential_bytes := potential_bytes,
           savings_bytes := (current_bytes : Int) - potential_bytes,
           current_dimensions := current_dim_str, display_dimensions := display_dim_str,
           recommended_dimensions := current_dim_str,
           current_format := "PNG", recommended_format := "JPEG",
           severity := if 3000000 < current_bytes then "medium" else "low",
           is_shared := is_shared }]
    else ops2
  -- 4. Check for uncompressed/high-quality JPEG (>1 byte/pixel)
  let ops4 : List OptimizationOpportunity :=
    if img_format = some "JPEG" then
      let bytes_per_pixel : ℚ :=
        (current_bytes : ℚ) / ((dims.pixel_width * dims.pixel_height : Nat) : ℚ)
      if 1 < bytes_per_pixel then
        let potential_bytes : Int := truncQ ((current_bytes : ℚ) * (1 / 2))
        ops3 ++
          [{ slide_index := slide_index, slide_title := slide_title,
             opportunity_type := "uncompressed_jpeg",
             current_bytes := current_bytes, potential_bytes := potential_bytes,
             savings_bytes := (current_bytes : Int) - potential_bytes,
             current_dimensions := current_dim_str, display_dimensions := display_dim_str,
             recommended_dimensions := current_dim_str,
             current_format := "JPEG (high quality)",
             recommended_format := "JPEG (quality 85)",
             severity := "low", is_shared := is_shared }]
      else ops3
    else ops3
  ops4

/-! ## `analyze_pptx_media`: first pass (media registry and slide media map) -/

/-- Deduplication key: `hash(blob)` for pictures (modelled by the blob
content), the package part name for general media parts. -/
inductive MediaKey where
  | blobKey (b : List Nat)
  | partKey (s : String)
deriving DecidableEq

/-- Python `'video' in ct.lower()` / `'audio' in ct.lower()` classification. -/
def mediaTypeOf (ct : String) : String :=
  if strContainsSub "video" (strLower ct) then "video"
  else if strContainsSub "audio" (strLower ct) then "audio"
  else "other"

/-- What the discovery pass extracts from one shape (`none` = the shape is
not classified as media, or its bytes could not be extracted). -/
structure RefEvent where
  key : MediaKey
  type : String
  size_bytes : Nat
  content_type : String
  reg_filename : Option String
deriving DecidableEq

/-- Classification of a single shape in the discovery pass. -/
def classifyShape : Shape → Option RefEvent
  | .picture (some img) _ _ =>
      some { key := .blobKey img.blob, type := "image", size_bytes := img.blob.length,
             content_type := img.content_type, reg_filename := img.filename }
  | .picture none _ _ => none
  | .media true (some p) =>
      some { key := .partKey p.partname, type := mediaTypeOf p.content_type,
             size_bytes := p.blob.length, content_type := p.content_type,
             reg_filename := some (pathBasename p.partname) }
  | .media _ _ => none
  | .nonMedia => none

/-- All classified media references of a presentation, with their 1-based
slide index, in traversal order. -/
def allEvents (p : Presentation) : List (Nat × RefEvent) :=
  (enum1 1 p.slides).flatMap
    (fun is => is.2.shapes.filterMap (fun sh => (classifyShape sh).map (fun e => (is.1, e))))

/-- One record of the `media_registry` dict. -/
structure RegEntry where
  size : Nat
  type : String
  content_type : String
  filename : Option String
  slides : List Nat
  first_slide : Nat
deriving DecidableEq

/-- The `media_registry` dict, as an insertion-ordered association list. -/
def Registry : Type := List (MediaKey × RegEntry)

/-- Dict lookup. -/
def regLookup : List (MediaKey × RegEntry) → MediaKey → Option RegEntry
  | [], _ => none
  | (k', e) :: r, k => if k' = k then some e else regLookup r k

/-- `media_registry[k]['slides'].append(i)`. -/
def regAppendSlide : List (MediaKey × RegEntry) → MediaKey → Nat → List (MediaKey × RegEntry)
  | [], _, _ => []
  | (k', e) :: r, k, i =>
      if k' = k then (k', { e with slides := e.slides ++ [i] }) :: r
      else (k', e) :: regAppendSlide r k i

/-- One registration: create the entry on first sight (with
`first_slide := i` and `slides := []`), then append the slide index. -/
def regStep (r : List (MediaKey × RegEntry)) (ev : Nat × RefEvent) : List (MediaKey × RegEntry) :=
  match regLookup r ev.2.key with
  | none =>
      r ++ [(ev.2.key,
        { size := ev.2.size_bytes, type := ev.2.type, content_type := ev.2.content_type,
          filename := ev.2.reg_filename, slides := [ev.1], first_slide := ev.1 })]
  | some _ => regAppendSlide r ev.2.key ev.1

/-- One record of the `slide_media_map` lists. -/
structure SlideRef where
  key : MediaKey
  type : String
  size_bytes : Nat
  content_type : String
  filename : Option String
deriving DecidableEq

/-- State of the discovery pass: the registry plus the flattened
`slide_media_map` (slide index paired with each stored reference, in
insertion order). -/
structure ScanState where
  reg : List (MediaKey × RegEntry)
  refs : List (Nat × SlideRef)
deriving DecidableEq

/-- Process one classified shape: register it, then store the slide
reference (whose `filename` is read back from the registry, i.e. is the
filename recorded at entry creation). -/
def scanStep (st : ScanState) (ev : Nat × RefEvent) : ScanState :=
  let reg := regStep st.reg ev
  let fname : Option String :=
    match regLookup reg ev.2.key with
    | some e => e.filename
    | none => none
  { reg := reg,
    refs := st.refs ++ [(ev.1,
      { key := ev.2.key, type := ev.2.type, size_bytes := ev.2.size_bytes,
        content_type := ev.2.content_type, filename := fname })] }

/-- The discovery pass over the whole presentation. -/
def scanPres (p : Presentation) : ScanState :=
  (allEvents p).foldl scanStep { reg := [], refs := [] }

/-! ## `analyze_pptx_media`: second pass (attribution) -/

/-- The attributed byte count of one media reference on slide `i`. -/
def countBytes (include_shared_media : Bool) (reg : List (MediaKey × RegEntry))
    (i : Nat) (r : SlideRef) : Nat :=
  match regLookup reg r.key with
  | some e =>
      let is_shared := decide (1 < e.slides.length)
      let is_first_appearance := decide (e.first_slide = i)
      if include_shared_media || !is_shared || is_first_appearance then r.size_bytes else 0
  | none => 0

/-- The `MediaItem` built for one media reference on slide `i`. -/
def mkItem (include_shared_media : Bool) (reg : List (MediaKey × RegEntry))
    (i : Nat) (r : SlideRef) : MediaItem :=
  let shared :=
    match regLookup reg r.key with
    | some e => decide (1 < e.slides.length)
    | none => false
  { type := r.type, size_bytes := countBytes include_shared_media reg i r,
    filename := r.filename, content_type := r.content_type,
    relationship_id := none, shared := shared }

/-- The media references stored for slide `i` by the discovery pass. -/
def refsFor (refs : List (Nat × SlideRef)) (i : Nat) : List SlideRef :=
  (refs.filter (fun x => x.1 = i)).map (fun x => x.2)

/-- Build the `SlideMediaStats` record for slide `i`.  The per-kind `+=`
accumulation of the source is the sum of attributed sizes per kind. -/
def slideStats (include_shared_media : Bool) (reg : List (MediaKey × RegEntry))
    (refs : List (Nat × SlideRef)) (i : Nat) (s : Slide) : SlideMediaStats :=
  let rs := refsFor refs i
  let items := rs.map (mkItem include_shared_media reg i)
  let bytesOf : String → Nat := fun t =>
    ((rs.filter (fun r => r.type = t)).map (countBytes include_shared_media reg i)).sum
  let image_bytes := bytesOf "image"
  let video_bytes := bytesOf "video"
  let audio_bytes := bytesOf "audio"
  let other_media_bytes :=
    ((rs.filter (fun r => r.type ≠ "image" ∧ r.type ≠ "video" ∧ r.type ≠ "audio")).map
      (countBytes include_shared_media reg i)).sum
  { slide_index := i, slide_title := s.title,
    total_media_bytes := image_bytes + video_bytes + audio_bytes + other_media_bytes,
    image_bytes := image_bytes, video_bytes := video_bytes, audio_bytes := audio_bytes,
    other_media_bytes := other_media_bytes, media_items := items }

/-- The per-slide statistics list in slide order (before the final sort). -/
def preStats (p : Presentation) (include_shared_media : Bool) : List SlideMediaStats :=
  (enum1 1 p.slides).map
    (fun is => slideStats include_shared_media (scanPres p).reg (scanPres p).refs is.1 is.2)

/-- The comparison used by `results.sort(key=..., reverse=True)`: a stable
sort placing larger `total_media_bytes` first. -/
def statsLE (a b : SlideMediaStats) : Bool :=
  decide (b.total_media_bytes ≤ a.total_media_bytes)

/-- `analyze_pptx_media` on a successfully opened presentation. -/
def analyze_pptx_media (p : Presentation) (include_shared_media : Bool) :
    List SlideMediaStats :=
  (preStats p include_shared_media).mergeSort statsLE

/-! ## Derived appearance bookkeeping (for stating the claims) -/

/-- All occurrences of key `k`, in traversal order. -/
def occs (p : Presentation) (k : MediaKey) : List (Nat × RefEvent) :=
  (allEvents p).filter (fun e => e.2.key = k)

/-- The slide indices on which key `k` appears (with repetitions), in
traversal order: the registry's `slides` list. -/
def appearSlides (p : Presentation) (k : MediaKey) : List Nat :=
  (occs p k).map (fun e => e.1)

/-- The slide of first appearance of key `k`. -/
def firstSlideKey (p : Presentation) (k : MediaKey) : Option Nat :=
  (appearSlides p k).head?

/-! ## `analyze_optimization_opportunities` -/

/-- One picture appearance collected by the optimization first pass:
slide index, slide title, shape extent, image part. -/
structure ImgEvent where
  idx : Nat
  title : Option String
  width : Int
  height : Int
  img : ImagePart
deriving DecidableEq

/-- All successfully extracted picture appearances, in traversal order. -/
def imgEvents (p : Presentation) : List ImgEvent :=
  (enum1 1 p.slides).flatMap
    (fun is => is.2.shapes.filterMap (fun sh =>
      match sh with
      | .picture (some img) w h =>
          some { idx := is.1, title := is.2.title, width := w, height := h, img := img }
      | _ => none))

/-- The registration events fed to the optimization pass's media registry
(images only, keyed by blob content). -/
def imgRegEvents (p : Presentation) : List (Nat × RefEvent) :=
  (imgEvents p).map (fun e =>
    (e.idx, { key := .blobKey e.img.blob, type := "image", size_bytes := e.img.blob.length,
              content_type := e.img.content_type, reg_filename := none }))

/-- The comparison used by `all_opportunities.sort(key=..., reverse=True)`. -/
def oppLE (a b : OptimizationOpportunity) : Bool :=
  decide (b.savings_bytes ≤ a.savings_bytes)

/-- `analyze_optimization_opportunities` on a successfully opened
presentation, given the Pillow decode oracle. -/
def analyze_optimization_opportunities (decode : PILDecoder) (p : Presentation) :
    List OptimizationOpportunity :=
  let reg := (imgRegEvents p).foldl regStep []
  let all := (imgEvents p).flatMap (fun e =>
    match regLookup reg (.blobKey e.img.blob) with
    | none => []
    | some entry =>
      let is_shared := decide (1 < entry.slides.length)
      let is_first_appearance := decide (entry.first_slide = e.idx)
      if is_first_appearance = false then []
      else
        match decode e.img.blob with
        | none => []
        | some pil =>
          let dims := get_image_dimensions pil.width pil.height e.width e.height
          analyze_image_optimization e.img.blob.length pil.format entry.content_type
            dims e.idx e.title is_shared)
  all.mergeSort oppLE

/-- Occurrences of a blob in the optimization pass, in traversal order. -/
def occsImg (p : Presentation) (b : List Nat) : List ImgEvent :=
  (imgEvents p).filter (fun e => e.img.blob = b)

/-- The first slide on which blob `b` appears. -/
def firstSlideImg (p : Presentation) (b : List Nat) : Option Nat :=
  ((occsImg p b).map (fun e => e.idx)).head?

/-- The content type recorded for blob `b` (from its first appearance). -/
def ctFirstImg (p : Presentation) (b : List Nat) : String :=
  match (occsImg p b).head? with
  | some e => e.img.content_type
  | none => ""

/-- The optimization analysis of one appearance, phrased with the derived
bookkeeping (used to state the claims about the pass). -/
def analyzeOneAppearance (decode : PILDecoder) (p : Presentation) (e : ImgEvent) :
    List OptimizationOpportunity :=
  match decode e.img.blob with
  | none => []
  | some pil =>
      analyze_image_optimization e.img.blob.length pil.format (ctFirstImg p e.img.blob)
        (get_image_dimensions pil.width pil.height e.width e.height)
        e.idx e.title (decide (1 < (occsImg p e.img.blob).length))

/-! ## `analyze_slide_masters` -/

/-- Total byte size of the picture shapes in a shape list (failed
extractions are skipped). -/
def pictureBytes (shapes : List Shape) : Nat :=
  shapes.foldl (fun acc sh =>
    match sh with
    | .picture (some img) _ _ => acc + img.blob.length
    | _ => acc) 0

/-- Number of successfully extracted picture shapes in a shape list. -/
def pictureCount (shapes : List Shape) : Nat :=
  shapes.foldl (fun acc sh =>
    match sh with
    | .picture (some _) _ _ => acc + 1
    | _ => acc) 0

/-- Dict lookup in the `layout_usage` map. -/
def usageLookup : List (Nat × List Nat) → Nat → Option (List Nat)
  | [], _ => none
  | (k', v) :: m, k => if k' = k then some v else usageLookup m k

/-- `layout_usage[k].append(i)` (after `layout_usage[k] = []` on first sight). -/
def usageAdd : List (Nat × List Nat) → Nat → Nat → List (Nat × List Nat)
  | [], k, i => [(k, [i])]
  | (k', v) :: m, k, i =>
      if k' = k then (k', v ++ [i]) :: m else (k', v) :: usageAdd m k i

/-- The `layout_usage` map: layout `id()` → 1-based indices of the slides
referencing that layout, built by one pass over the slides. -/
def buildLayoutUsage (p : Presentation) : List (Nat × List Nat) :=
  (enum1 1 p.slides).foldl (fun m is => usageAdd m is.2.slide_layout_id is.1) []

/-- The `LayoutMediaStats` record for layout `l` at 1-based index `li`. -/
def layoutStatFor (usage : List (Nat × List Nat)) (li : Nat) (l : Layout) :
    LayoutMediaStats :=
  let slides_using := (usageLookup usage l.lid).getD []
  let is_used := decide (0 < slides_using.length)
  let layout_name := if l.name ≠ "" then l.name else "Layout " ++ toString li
  let layout_image_bytes := pictureBytes l.shapes
  { layout_name := layout_name, layout_index := li,
    total_media_bytes := layout_image_bytes + 0 + 0 + 0,
    image_bytes := layout_image_bytes, video_bytes := 0, audio_bytes := 0,
    other_media_bytes := 0, media_count := pictureCount l.shapes,
    is_used := is_used, slides_using := slides_using }

/-- The `MasterMediaStats` record for master `m` at 1-based index `mi`. -/
def masterStatFor (usage : List (Nat × List Nat)) (mi : Nat) (m : Master) :
    MasterMediaStats :=
  let master_image_bytes := pictureBytes m.shapes
  let master_total := master_image_bytes + 0 + 0 + 0
  let layouts := (enum1 1 m.layouts).map (fun il => layoutStatFor usage il.1 il.2)
  let master_layout_bytes := layouts.foldl (fun acc ls => acc + ls.total_media_bytes) 0
  let master_unused_bytes :=
    layouts.foldl (fun acc ls => acc + if ls.is_used then 0 else ls.total_media_bytes) 0
  { master_index := mi,
    master_name := if m.name ≠ "" then some m.name else none,
    total_media_bytes := master_total, image_bytes := master_image_bytes,
    video_bytes := 0, audio_bytes := 0, other_media_bytes := 0,
    media_count := pictureCount m.shapes, layouts := layouts,
    total_layout_bytes := master_layout_bytes, unused_layout_bytes := master_unused_bytes }

/-- `analyze_slide_masters` on a successfully opened presentation. -/
def analyze_slide_masters (p : Presentation) : MastersReport :=
  let usage := buildLayoutUsage p
  let masters := (enum1 1 p.masters).map (fun im => masterStatFor usage im.1 im.2)
  { total_masters := p.masters.length,
    total_layouts := masters.foldl (fun acc ms => acc + ms.layouts.length) 0,
    unused_layouts := masters.foldl (fun acc ms =>
      acc + (ms.layouts.filter (fun ls => ls.is_used = false)).length) 0,
    total_master_media_bytes := masters.foldl (fun acc ms => acc + ms.total_media_bytes) 0,
    total_layout_media_bytes := masters.foldl (fun acc ms => acc + ms.total_layout_bytes) 0,
    unused_layout_media_bytes := masters.foldl (fun acc ms => acc + ms.unused_layout_bytes) 0,
    masters := masters }

/-! ## `delete_unused_layouts` -/

/-- Deletion of the unused layouts of one master: for each collected unused
layout, the first `sldLayoutId` entry resolving to that layout object is
removed (success is counted and its picture bytes accumulated).  Returns
the updated layout list, the number of deletions and the bytes freed. -/
def deleteFromMaster (used_layout_ids : List Nat) (m : Master) :
    Master × Nat × Nat :=
  let layouts_to_delete :=
    (m.layouts.filter (fun l => !(used_layout_ids.contains l.lid))).map
      (fun l => (l, pictureBytes l.shapes))
  let res := layouts_to_delete.foldl
    (fun (acc : List Layout × Nat × Nat) lb =>
      if acc.1.any (fun x => x.lid = lb.1.lid) then
        (acc.1.eraseP (fun x => decide (x.lid = lb.1.lid)), acc.2.1 + 1, acc.2.2 + lb.2)
      else acc)
    (m.layouts, 0, 0)
  ({ m with layouts := res.1 }, res.2.1, res.2.2)

/-- A filesystem path, decomposed as `pathlib` sees it: parent directory,
stem and suffix.  The full path is the concatenation of the three. -/
structure PathName where
  parent : String
  stem : String
  suffix : String
deriving DecidableEq

/-- `Path.with_stem(stem + "_cleaned")`. -/
def cleanedPath (path : PathName) : PathName :=
  { path with stem := path.stem ++ "_cleaned" }

/-- `delete_unused_layouts` on a successfully opened presentation: returns
`(layouts_deleted, bytes_saved, output_path)` together with the modified
in-memory presentation that is saved to the output path. -/
def delete_unused_layouts (p : Presentation) (path : PathName) :
    Nat × Nat × PathName × Presentation :=
  let used_layout_ids := p.slides.map (fun s => s.slide_layout_id)
  let step := p.masters.map (deleteFromMaster used_layout_ids)
  let layouts_deleted := step.foldl (fun acc r => acc + r.2.1) 0
  let bytes_saved := step.foldl (fun acc r => acc + r.2.2) 0
  let newPres : Presentation := { p with masters := step.map (fun r => r.1) }
  (layouts_deleted, bytes_saved, cleanedPath path, newPres)

/-- The observable effect of `prs.save(output_path)` on a disk modelled as a
map from paths to saved presentations: only the output path is written. -/
def saveToDisk (disk : PathName → Option Presentation) (out : PathName)
    (pr : Presentation) : PathName → Option Presentation :=
  fun q => if q = out then some pr else disk q

/-! ## Entry-point validation (shared by all three analyzers) -/

/-- The error taxonomy of the spec (`FileNotFoundError` / the two
`ValueError` variants of the source). -/
inductive AnalyzerError where
  | notFound (path : PathName)
  | unsupportedType (path : PathName)
  | corruptInput (msg : String)
deriving DecidableEq

/-- The environment an entry point interacts with: path existence and the
package parser (`Presentation(path)`), whose `Exception` text is the
`Except.error` payload. -/
structure PKEnv where
  pathExists : PathName → Bool
  openPresentation : PathName → Except String Presentation

/-- The validation prelude repeated at the top of each entry point:
existence check, then case-insensitive extension check, then parse. -/
def validateAndOpen (env : PKEnv) (path : PathName) :
    Except AnalyzerError Presentation :=
  if env.pathExists path = false then .error (.notFound path)
  else if strLower path.suffix ≠ ".pptx" then .error (.unsupportedType path)
  else
    match env.openPresentation path with
    | .error e => .error (.corruptInput ("failed to open .pptx: " ++ e))
    | .ok prs => .ok prs

/-- `analyze_pptx_media` including its validation prelude. -/
def analyze_pptx_media_entry (env : PKEnv) (path : PathName)
    (include_shared_media : Bool) : Except AnalyzerError (List SlideMediaStats) :=
  match validateAndOpen env path with
  | .error e => .error e
  | .ok prs => .ok (analyze_pptx_media prs include_shared_media)

/-- `analyze_optimization_opportunities` including its validation prelude. -/
def analyze_optimization_opportunities_entry (env : PKEnv) (decode : PILDecoder)
    (path : PathName) : Except AnalyzerError (List OptimizationOpportunity) :=
  match validateAndOpen env path with
  | .error e => .error e
  | .ok prs => .ok (analyze_optimization_opportunities decode prs)

/-- `analyze_slide_masters` including its validation prelude. -/
def analyze_slide_masters_entry (env : PKEnv) (path : PathName) :
    Except AnalyzerError MastersReport :=
  match validateAndOpen env path with
  | .error e => .error e
  | .ok prs => .ok (analyze_slide_masters prs)

/-! ## Auxiliary derived forms used in lemmas -/

/-- The classified events contributed by one enumerated slide. -/
def slideEventsAt (is : Nat × Slide) : List (Nat × RefEvent) :=
  is.2.shapes.filterMap (fun sh => (classifyShape sh).map (fun e => (is.1, e)))

/-- Occurrences of key `k` in an arbitrary event list. -/
def occsL (es : List (Nat × RefEvent)) (k : MediaKey) : List (Nat × RefEvent) :=
  es.filter (fun e => e.2.key = k)

/-- The registry entry that a run over `es` produces for key `k`
(`none` when `k` never occurs): metadata from the first occurrence,
`slides` collecting every occurrence in order. -/
def regEntryFor (es : List (Nat × RefEvent)) (k : MediaKey) : Option RegEntry :=
  match occsL es k with
  | [] => none
  | e0 :: _ =>
      some { size := e0.2.size_bytes, type := e0.2.type,
             content_type := e0.2.content_type, filename := e0.2.reg_filename,
             slides := (occsL es k).map (fun e => e.1), first_slide := e0.1 }

/-- Slide reference data without the registry-derived filename. -/
def stripR (x : Nat × SlideRef) : Nat × MediaKey × String × Nat × String :=
  (x.1, x.2.key, x.2.type, x.2.size_bytes, x.2.content_type)

/-- Event data without the would-be registry filename. -/
def stripE (x : Nat × RefEvent) : Nat × MediaKey × String × Nat × String :=
  (x.1, x.2.key, x.2.type, x.2.size_bytes, x.2.content_type)

/-! ## Claim statements -/

/-- Claim C1, per media reference: attribution rule, shared flag, first
slide is the minimum appearance, and content-keyed size determinism; the
built item occurs on slide `i`'s record in the analyzer output. -/
def C1Concl (p : Presentation) (include_shared_media : Bool) (i : Nat) (r : SlideRef) : Prop :=
  (mkItem include_shared_media (scanPres p).reg i r).size_bytes =
    (if include_shared_media = true ∨ (appearSlides p r.key).length = 1 ∨
        firstSlideKey p r.key = some i
     then r.size_bytes else 0)
  ∧ (mkItem include_shared_media (scanPres p).reg i r).shared =
      decide (1 < (appearSlides p r.key).length)
  ∧ (∃ f, firstSlideKey p r.key = some f ∧ ∀ j ∈ appearSlides p r.key, f ≤ j)
  ∧ (∀ b, r.key = .blobKey b → r.size_bytes = b.length)
  ∧ (∃ stats, stats ∈ analyze_pptx_media p include_shared_media ∧ stats.slide_index = i ∧
      mkItem include_shared_media (scanPres p).reg i r ∈ stats.media_items)

/-- Claim C2: the four checks in fixed order, with their exact firing
conditions, constants, severities and linear savings model.  This is the
spec-side rendition of `analyze_image_optimization`; the only structural
differences from the source are that the check-2 suppression is phrased
directly as "check 1 did not fire" and the accumulator is a concatenation. -/
def C2Concl (image_blob_len : Nat) (img_format : Option String) (content_type : String)
    (dims : ImageDimensions) (slide_index : Nat) (slide_title : Option String)
    (is_shared : Bool) : Prop :=
  analyze_image_optimization image_blob_len img_format content_type dims
      slide_index slide_title is_shared =
    (if (5 : ℚ) / 2 < dims.resolution_ratio then
      let aspect : ℚ := (dims.pixel_width : ℚ) / (dims.pixel_height : ℚ)
      let rw0 : Int := dims.display_width_px * 2
      let rh0 : Int := dims.display_height_px * 2
      let rw : Int := if aspect < (rw0 : ℚ) / (rh0 : ℚ) then truncQ ((rh0 : ℚ) * aspect) else rw0
      let rh : Int := if aspect < (rw0 : ℚ) / (rh0 : ℚ) then rh0 else truncQ ((rw0 : ℚ) / aspect)
      let potential : Int := truncQ ((image_blob_len : ℚ) *
        (((rw * rh : Int) : ℚ) / ((dims.pixel_width * dims.pixel_height : Nat) : ℚ)))
      [{ slide_index := slide_index, slide_title := slide_title,
         opportunity_type := "oversized_resolution",
         current_bytes := image_blob_len, potential_bytes := potential,
         savings_bytes := (image_blob_len : Int) - potential,
         current_dimensions := toString dims.pixel_width ++ "x" ++ toString dims.pixel_height,
         display_dimensions := toString dims.display_width_px ++ "x" ++ toString dims.display_height_px,
         recommended_dimensions := toString rw ++ "x" ++ toString rh,
         current_format := img_format.getD content_type,
         recommended_format := img_format.getD content_type,
         severity := if (5 : ℚ) < dims.resolution_ratio then "high" else "medium",
         is_shared := is_shared }]
     else []) ++
    (if 3200 < max dims.pixel_width dims.pixel_height ∧
        ¬ ((5 : ℚ) / 2 < dims.resolution_ratio) then
      let aspect : ℚ := (dims.pixel_width : ℚ) / (dims.pixel_height : ℚ)
      let rw : Int := if dims.pixel_height < dims.pixel_width then 2560 else truncQ ((2560 : ℚ) * aspect)
      let rh : Int := if dims.pixel_height < dims.pixel_width then truncQ ((2560 : ℚ) / aspect) else 2560
      let potential : Int := truncQ ((image_blob_len : ℚ) *
        (((rw * rh : Int) : ℚ) / ((dims.pixel_width * dims.pixel_height : Nat) : ℚ)))
      [{ slide_index := slide_index, slide_title := slide_title,
         opportunity_type := "absolute_size",
         current_bytes := image_blob_len, potential_bytes := potential,
         savings_bytes := (image_blob_len : Int) - potential,
         current_dimensions := toString dims.pixel_width ++ "x" ++ toString dims.pixel_height,
         display_dimensions := toString dims.display_width_px ++ "x" ++ toString dims.display_height_px,
         recommended_dimensions := toString rw ++ "x" ++ toString rh,
         current_format := img_format.getD content_type,
         recommended_format := img_format.getD content_type,
         severity := "medium", is_shared := is_shared }]
     else []) ++
    (if img_format = some "PNG" ∧ 1000000 < image_blob_len then
      [{ slide_index := slide_index, slide_title := slide_title,
         opportunity_type := "png_photo",
         current_bytes := image_blob_len,
         potential_bytes := truncQ ((image_blob_len : ℚ) * (3 / 10)),
         savings_bytes := (image_blob_len : Int) - truncQ ((image_blob_len : ℚ) * (3 / 10)),
         current_dimensions := toString dims.pixel_width ++ "x" ++ toString dims.pixel_height,
         display_dimensions := toString dims.display_width_px ++ "x" ++ toString dims.display_height_px,
         recommended_dimensions := toString dims.pixel_width ++ "x" ++ toString dims.pixel_height,
         current_format := "PNG", recommended_format := "JPEG",
         severity := if 3000000 < image_blob_len then "medium" else "low",
         is_shared := is_shared }]
     else []) ++
    (if img_format = some "JPEG" ∧
        1 < (image_blob_len : ℚ) / ((dims.pixel_width * dims.pixel_height : Nat) : ℚ) then
      [{ slide_index := slide_index, slide_title := slide_title,
         opportunity_type := "uncompressed_jpeg",
         current_bytes := image_blob_len,
         potential_bytes := truncQ ((image_blob_len : ℚ) * (1 / 2)),
         savings_bytes := (image_blob_len : Int) - truncQ ((image_blob_len : ℚ) * (1 / 2)),
         current_dimensions := toString dims.pixel_width ++ "x" ++ toString dims.pixel_height,
         display_dimensions := toString dims.display_width_px ++ "x" ++ toString dims.display_height_px,
         recommended_dimensions := toString dims.pixel_width ++ "x" ++ toString dims.pixel_height,
         current_format := "JPEG (high quality)", recommended_format := "JPEG (quality 85)",
         severity := "low", is_shared := is_shared }]
     else [])

/-- Claim C3: layout usage is determined by object identity, `slides_using`
are exactly the 1-based indices of the referencing slides, and the
unused-layout byte aggregates (per master and report-level) sum the totals
of the layouts with an empty using-slide set.  Note that the layout name
appears nowhere in the usage condition. -/
def C3Concl (p : Presentation) : Prop :=
  (∀ mi mm, (mi, mm) ∈ enum1 1 p.masters →
    ∃ ms, ms ∈ (analyze_slide_masters p).masters ∧ ms.master_index = mi ∧
      (∀ li ll, (li, ll) ∈ enum1 1 mm.layouts →
        ∃ ls, ls ∈ ms.layouts ∧ ls.layout_index = li ∧
          (ls.is_used = true ↔ ∃ s ∈ p.slides, s.slide_layout_id = ll.lid) ∧
          ls.slides_using =
            ((enum1 1 p.slides).filter (fun is => is.2.slide_layout_id = ll.lid)).map
              (fun is => is.1)) ∧
      ms.unused_layout_bytes =
        ((ms.layouts.filter (fun ls => ls.slides_using = [])).map
          (fun ls => ls.total_media_bytes)).sum)
  ∧ (analyze_slide_masters p).unused_layout_media_bytes =
      (((((analyze_slide_masters p).masters).flatMap (fun ms => ms.layouts)).filter
        (fun ls => ls.slides_using = [])).map (fun ls => ls.total_media_bytes)).sum

/-- Claim C4: deleting unused layouts keeps exactly the referenced layouts,
deletes exactly the number flagged unused by `analyze_slide_masters`, and
writes to a fresh output path, leaving the input path's content untouched. -/
def C4Concl (p : Presentation) (path : PathName) : Prop :=
  (delete_unused_layouts p path).2.2.2.masters =
    p.masters.map (fun m =>
      { m with layouts := m.layouts.filter (fun l =>
          p.slides.any (fun s => s.slide_layout_id = l.lid)) })
  ∧ (delete_unused_layouts p path).1 = (analyze_slide_masters p).unused_layouts
  ∧ ((delete_unused_layouts p path).2.2.2.masters.flatMap (fun m => m.layouts)).length =
      (p.masters.flatMap (fun m => m.layouts)).length - (delete_unused_layouts p path).1
  ∧ (∀ m ∈ p.masters, ∀ l ∈ m.layouts, (∃ s ∈ p.slides, s.slide_layout_id = l.lid) →
      ∃ m2, m2 ∈ (delete_unused_layouts p path).2.2.2.masters ∧ l ∈ m2.layouts)
  ∧ (delete_unused_layouts p path).2.2.1 ≠ path
  ∧ (∀ disk : PathName → Option Presentation, ∀ pr : Presentation,
      saveToDisk disk (delete_unused_layouts p path).2.2.1 pr path = disk path)

/-- Claim C5: one record per slide, sorted by total descending, with ties
keeping the ascending original slide order. -/
def C5Concl (p : Presentation) (include_shared_media : Bool) : Prop :=
  (analyze_pptx_media p include_shared_media).length = p.slides.length
  ∧ ((analyze_pptx_media p include_shared_media).map (fun st => st.slide_index)).Perm
      (List.range' 1 p.slides.length)
  ∧ (analyze_pptx_media p include_shared_media).Pairwise
      (fun a b => b.total_media_bytes ≤ a.total_media_bytes)
  ∧ ∀ a b, a ∈ analyze_pptx_media p include_shared_media →
      b ∈ analyze_pptx_media p include_shared_media →
      a.total_media_bytes = b.total_media_bytes → a.slide_index < b.slide_index →
      [a, b].Sublist (analyze_pptx_media p include_shared_media)

/-- Claim C6 (amended): the output is a permutation of the concatenated
analyses of exactly those picture appearances that sit on their asset's
first slide, and it is sorted by `savings_bytes` descending. -/
def C6Concl (decode : PILDecoder) (p : Presentation) : Prop :=
  (analyze_optimization_opportunities decode p).Perm
    (((imgEvents p).filter (fun e => firstSlideImg p e.img.blob = some e.idx)).flatMap
      (analyzeOneAppearance decode p))
  ∧ (analyze_optimization_opportunities decode p).Pairwise
      (fun a b => b.savings_bytes ≤ a.savings_bytes)

/-- Claim C7: validation order and error taxonomy of the three entry points. -/
def C7Concl (env : PKEnv) (decode : PILDecoder) (include_shared_media : Bool)
    (path : PathName) : Prop :=
  (env.pathExists path = false →
    analyze_pptx_media_entry env path include_shared_media = .error (.notFound path) ∧
    analyze_optimization_opportunities_entry env decode path = .error (.notFound path) ∧
    analyze_slide_masters_entry env path = .error (.notFound path))
  ∧ (env.pathExists path = true → strLower path.suffix ≠ ".pptx" →
    analyze_pptx_media_entry env path include_shared_media = .error (.unsupportedType path) ∧
    analyze_optimization_opportunities_entry env decode path = .error (.unsupportedType path) ∧
    analyze_slide_masters_entry env path = .error (.unsupportedType path))
  ∧ (∀ msg, env.pathExists path = true → strLower path.suffix = ".pptx" →
      env.openPresentation path = .error msg →
      analyze_pptx_media_entry env path include_shared_media =
        .error (.corruptInput ("failed to open .pptx: " ++ msg)) ∧
      analyze_optimization_opportunities_entry env decode path =
        .error (.corruptInput ("failed to open .pptx: " ++ msg)) ∧
      analyze_slide_masters_entry env path =
        .error (.corruptInput ("failed to open .pptx: " ++ msg)))

/-- Claim C8: a slide with no classified media still yields a record, with
all five byte totals zero and no items. -/
def C8Concl (p : Presentation) (include_shared_media : Bool) (i : Nat) (s : Slide) : Prop :=
  ∃ stats, stats ∈ analyze_pptx_media p include_shared_media ∧
    stats.slide_index = i ∧ stats.slide_title = s.title ∧
    stats.total_media_bytes = 0 ∧ stats.image_bytes = 0 ∧ stats.video_bytes = 0 ∧
    stats.audio_bytes = 0 ∧ stats.other_media_bytes = 0 ∧ stats.media_items = []

/-- Claim C9: the exact `format_bytes` formatting rules.  `0` is the stated
exception to the `B` rule; every other value below 1024 prints as an
integer with unit `B`; at or above 1024 the output always carries exactly
one decimal digit and a `KB`/`MB`/`GB` unit. -/
def C9Concl : Prop :=
  format_bytes 0 = "0.0 MB"
  ∧ (∀ n : Nat, n ≠ 0 → n < 1024 → format_bytes n = toString n ++ " B")
  ∧ (∀ n : Nat, 1024 ≤ n →
      ∃ d : Int, ∃ u : String, (u = " KB" ∨ u = " MB" ∨ u = " GB") ∧
        0 ≤ d ∧ 0 ≤ d % 10 ∧ d % 10 < 10 ∧
        format_bytes n = toString (d / 10) ++ "." ++ toString (d % 10) ++ u)
  ∧ format_bytes 500 = "500 B"
  ∧ format_bytes 1024 = "1.0 KB"
  ∧ format_bytes 1048576 = "1.0 MB"
  ∧ format_bytes 1572864 = "1.5 MB"
  ∧ format_bytes 1073741824 = "1.0 GB"

/-- Claim C10: display dimensions are EMU-to-pixel truncations and the
resolution ratio is total — `1.0` whenever a computed display dimension is
zero or negative, the max of the two per-axis ratios otherwise. -/
def C10Concl : Prop :=
  ∀ (pw ph : Nat) (sw sh2 : Int),
    (get_image_dimensions pw ph sw sh2).pixel_width = pw
    ∧ (get_image_dimensions pw ph sw sh2).pixel_height = ph
    ∧ (get_image_dimensions pw ph sw sh2).display_width_px = truncQ ((sw : ℚ) / 914400 * 96)
    ∧ (get_image_dimensions pw ph sw sh2).display_height_px = truncQ ((sh2 : ℚ) / 914400 * 96)
    ∧ ((get_image_dimensions pw ph sw sh2).display_width_px ≤ 0 ∨
        (get_image_dimensions pw ph sw sh2).display_height_px ≤ 0 →
        (get_image_dimensions pw ph sw sh2).resolution_ratio = 1)
    ∧ (0 < (get_image_dimensions pw ph sw sh2).display_width_px →
        0 < (get_image_dimensions pw ph sw sh2).display_height_px →
        (get_image_dimensions pw ph sw sh2).resolution_ratio =
          max ((pw : ℚ) / ((get_image_dimensions pw ph sw sh2).display_width_px : ℚ))
            ((ph : ℚ) / ((get_image_dimensions pw ph sw sh2).display_height_px : ℚ)))

/-! ## Concrete inputs for witnesses and the counterexample -/

/-- A small shared image part. -/
def imgW : ImagePart := { blob := [1, 2, 3], content_type := "image/png", filename := some "a.png" }

/-- Another image part, sitting on an unused layout. -/
def imgW2 : ImagePart := { blob := [9, 9], content_type := "image/png", filename := none }

/-- A presentation with a shared image on slides 1 and 2, an empty slide 3,
one master whose layout `10` is used and whose layout `11` is unused. -/
def presW : Presentation :=
  { slides :=
      [ { title := some "A", slide_layout_id := 10,
          shapes := [.picture (some imgW) 914400 914400, .nonMedia] },
        { title := none, slide_layout_id := 10,
          shapes := [.picture (some imgW) 914400 914400] },
        { title := some "C", slide_layout_id := 10, shapes := [] } ],
    masters :=
      [ { name := "M", shapes := [],
          layouts :=
            [ { lid := 10, name := "L1", shapes := [] },
              { lid := 11, name := "", shapes := [.picture (some imgW2) 1 1] } ] } ] }

/-- The slide reference that the discovery pass stores for `imgW`. -/
def refW : SlideRef :=
  { key := .blobKey [1, 2, 3], type := "image", size_bytes := 3,
    content_type := "image/png", filename := some "a.png" }

/-- A concrete input path. -/
def pathW : PathName := { parent := "/tmp/", stem := "deck", suffix := ".pptx" }

/-- Concrete dimensions for the `analyze_image_optimization` witness. -/
def dimsW : ImageDimensions :=
  { pixel_width := 4000, pixel_height := 3000, display_width_px := 100,
    display_height_px := 100, resolution_ratio := 40 }

/-- The image used by the C6 counterexample. -/
def imgC : ImagePart := { blob := [7], content_type := "image/png", filename := none }

/-- One slide containing the same picture twice: the asset's first slide. -/
def presC : Presentation :=
  { slides :=
      [ { title := some "T", slide_layout_id := 1,
          shapes := [.picture (some imgC) 914400 914400,
                     .picture (some imgC) 914400 914400] } ],
    masters := [] }

/-- A decode oracle declaring every blob a 1000x1000 JPEG. -/
def decodeC : PILDecoder := fun _ => some { width := 1000, height := 1000, format := some "JPEG" }

/-! ## Small arithmetic helpers -/

theorem rhe_nonneg {q : ℚ} (h : 0 ≤ q) : 0 ≤ rhe q := by
  unfold rhe
  have hf : (0 : Int) ≤ ⌊q⌋ := Int.le_floor.mpr (by exact_mod_cast h)
  split
  · exact hf
  · split
    · omega
    · split
      · exact hf
      · omega

/-! ## Claim C10 -/

/-- C10: `get_image_dimensions` computes display dimensions by EMU→pixel
truncation and is total in the ratio: `1.0` when a display dimension is
zero or negative, otherwise the max of the two per-axis pixel/display
ratios. -/
theorem claim_C10 : C10Concl := by
  intro pw ph sw sh2
  refine ⟨rfl, rfl, rfl, rfl, ?_, ?_⟩
  · intro h
    simp only [get_image_dimensions] at h ⊢
    rw [if_neg]
    intro hc
    rcases h with h | h
    · omega
    · omega
  · intro h1 h2
    simp only [get_image_dimensions] at h1 h2 ⊢
    rw [if_pos ⟨h1, h2⟩]

/-! ## Claim C9 -/

/-- C9: the `format_bytes` rules — `0` prints `"0.0 MB"`, other values
below 1024 print as an integer number of bytes, larger values print with
exactly one decimal digit and a `KB`/`MB`/`GB` unit; the spec's five sample
values evaluate exactly. -/
theorem claim_C9 : C9Concl := by
  refine ⟨by norm_num [format_bytes], ?_, ?_, ?_, ?_, ?_, ?_, ?_⟩
  · intro n h0 h1024
    unfold format_bytes
    rw [if_neg h0, if_pos h1024]
  · intro n hn
    have h0 : ¬ n = 0 := by omega
    have h1 : ¬ n < 1024 := by omega
    by_cases hk : ((n : ℚ) / 1024) < 1024
    · refine ⟨rhe ((n : ℚ) / 1024 * 10), " KB", Or.inl rfl,
        rhe_nonneg (by positivity), Int.emod_nonneg _ (by norm_num),
        Int.emod_lt_of_pos _ (by norm_num), ?_⟩
      unfold format_bytes fmt1
      rw [if_neg h0, if_neg h1, if_pos hk]
    · by_cases hm : ((n : ℚ) / 1024 / 1024) < 1024
      · refine ⟨rhe ((n : ℚ) / 1024 / 1024 * 10), " MB", Or.inr (Or.inl rfl),
          rhe_nonneg (by positivity), Int.emod_nonneg _ (by norm_num),
          Int.emod_lt_of_pos _ (by norm_num), ?_⟩
        unfold format_bytes fmt1
        rw [if_neg h0, if_neg h1, if_neg hk, if_pos hm]
      · refine ⟨rhe ((n : ℚ) / 1024 / 1024 / 1024 * 10), " GB", Or.inr (Or.inr rfl),
          rhe_nonneg (by positivity), Int.emod_nonneg _ (by norm_num),
          Int.emod_lt_of_pos _ (by norm_num), ?_⟩
        unfold format_bytes fmt1
        rw [if_neg h0, if_neg h1, if_neg hk, if_neg hm]
  · norm_num [format_bytes]
    rfl
  · norm_num [format_bytes, fmt1, rhe]
    rfl
  · norm_num [format_bytes, fmt1, rhe]
    rfl
  · norm_num [format_bytes, fmt1, rhe]
    rfl
  · norm_num [format_bytes, fmt1, rhe]
    rfl

/-! ## Claim C7 -/

/-- C7: each of the three entry points checks existence first (NotFound),
then the case-insensitive `.pptx` extension (UnsupportedType), and wraps a
parse failure's text in CorruptInput. -/
theorem claim_C7 (env : PKEnv) (decode : PILDecoder) (include_shared_media : Bool)
    (path : PathName) : C7Concl env decode include_shared_media path := by
  refine ⟨?_, ?_, ?_⟩
  · intro h
    refine ⟨?_, ?_, ?_⟩ <;>
      simp [analyze_pptx_media_entry, analyze_optimization_opportunities_entry,
        analyze_slide_masters_entry, validateAndOpen, h]
  · intro h hsuf
    refine ⟨?_, ?_, ?_⟩ <;>
      simp [analyze_pptx_media_entry, analyze_optimization_opportunities_entry,
        analyze_slide_masters_entry, validateAndOpen, h, hsuf]
  · intro msg h hsuf hopen
    refine ⟨?_, ?_, ?_⟩ <;>
      simp [analyze_pptx_media_entry, analyze_optimization_opportunities_entry,
        analyze_slide_masters_entry, validateAndOpen, h, hsuf, hopen]

/-! ## Claim C2 -/

/-- C2: `analyze_image_optimization` runs the four checks in fixed order
with the exact firing conditions, constants, severities and the linear
byte-per-pixel-area savings model; check 2 is suppressed exactly when
check 1 fired. -/
theorem claim_C2 (image_blob_len : Nat) (img_format : Option String)
    (content_type : String) (dims : ImageDimensions) (slide_index : Nat)
    (slide_title : Option String) (is_shared : Bool) :
    C2Concl image_blob_len img_format content_type dims slide_index slide_title is_shared := by
  unfold C2Concl analyze_image_optimization
  by_cases c1 : (5 : ℚ) / 2 < dims.resolution_ratio <;>
    by_cases c2 : 3200 < max dims.pixel_width dims.pixel_height <;>
      by_cases c3 : img_format = some "PNG" ∧ 1000000 < image_blob_len <;>
        by_cases c4 : img_format = some "JPEG" <;>
          by_cases c5 : 1 < (image_blob_len : ℚ) /
              ((dims.pixel_width : ℚ) * (dims.pixel_height : ℚ)) <;>
            simp [c1, c2, c3, c4, c5]

/-! ## Lemmas about `enum1` -/

theorem enum1_length {α : Type} (s : Nat) (l : List α) :
    (enum1 s l).length = l.length := by
  induction l generalizing s with
  | nil => rfl
  | cons a t ih => simp [enum1, ih]

theorem enum1_map_fst {α : Type} (s : Nat) (l : List α) :
    (enum1 s l).map Prod.fst = List.range' s l.length := by
  induction l generalizing s with
  | nil => rfl
  | cons a t ih => simp [enum1, List.range'_succ, ih]

theorem enum1_map_snd {α : Type} (s : Nat) (l : List α) :
    (enum1 s l).map Prod.snd = l := by
  induction l generalizing s with
  | nil => rfl
  | cons a t ih => simp [enum1, ih]

theorem enum1_get {α : Type} (s : Nat) (l : List α) (k : Nat) (h : k < l.length) :
    (enum1 s l).get ⟨k, by rw [enum1_length]; exact h⟩ = (s + k, l.get ⟨k, h⟩) := by
  induction l generalizing s k with
  | nil => cases h
  | cons a t ih =>
    cases k with
    | zero => simp [enum1]
    | succ k2 =>
      have h2 : k2 < t.length := by simpa using h
      have := ih (s + 1) k2 h2
      simp only [enum1, List.get_cons_succ, this]
      refine Prod.ext ?_ rfl
      simp
      omega

theorem enum1_mem_bounds {α : Type} (s : Nat) (l : List α) :
    ∀ x ∈ enum1 s l, s ≤ x.1 ∧ x.1 < s + l.length := by
  induction l generalizing s with
  | nil => intro x hx; cases hx
  | cons a t ih =>
    intro x hx
    rw [enum1] at hx
    rcases List.mem_cons.mp hx with hx1 | hx2
    · subst hx1
      simp only [List.length_cons]
      omega
    · rcases ih (s + 1) x hx2 with ⟨h1, h2⟩
      simp only [List.length_cons]
      omega

theorem enum1_mem_get {α : Type} (s : Nat) (l : List α) (i : Nat) (a : α)
    (h : (i, a) ∈ enum1 s l) :
    ∃ k, ∃ (hk : k < l.length), i = s + k ∧ l.get ⟨k, hk⟩ = a := by
  rcases List.mem_iff_get.mp h with ⟨⟨k, hk⟩, hget⟩
  have hk2 : k < l.length := by
    have h2 := hk
    rwa [enum1_length] at h2
  have hget2 : (s + k, l.get ⟨k, hk2⟩) = (i, a) := by
    rw [← enum1_get s l k hk2]
    exact hget
  injection hget2 with h1 h2
  exact ⟨k, hk2, h1.symm, h2⟩

theorem enum1_get_mem {α : Type} (s : Nat) (l : List α) (k : Nat) (h : k < l.length) :
    (s + k, l.get ⟨k, h⟩) ∈ enum1 s l := by
  rw [← enum1_get s l k h]
  exact List.get_mem _ _ _

/-! ## Lemmas about the discovery-pass event list -/

theorem allEvents_eq (p : Presentation) :
    allEvents p = (enum1 1 p.slides).flatMap slideEventsAt := rfl

theorem slideEventsAt_fst (is : Nat × Slide) :
    ∀ x ∈ slideEventsAt is, x.1 = is.1 := by
  intro x hx
  rcases List.mem_filterMap.mp hx with ⟨sh, _, hsh⟩
  rcases Option.map_eq_some'.mp hsh with ⟨e, _, hx2⟩
  rw [← hx2]

theorem events_fst_lb {s : Nat} {l : List Slide} :
    ∀ x ∈ (enum1 s l).flatMap slideEventsAt, s ≤ x.1 := by
  intro x hx
  rcases List.mem_flatMap.mp hx with ⟨is, hmem, hx2⟩
  have h1 := (enum1_mem_bounds s l is hmem).1
  have h2 := slideEventsAt_fst is x hx2
  omega

theorem events_fst_ub {s : Nat} {l : List Slide} :
    ∀ x ∈ (enum1 s l).flatMap slideEventsAt, x.1 < s + l.length := by
  intro x hx
  rcases List.mem_flatMap.mp hx with ⟨is, hmem, hx2⟩
  have h1 := (enum1_mem_bounds s l is hmem).2
  have h2 := slideEventsAt_fst is x hx2
  omega

theorem events_fst_sorted (s : Nat) (l : List Slide) :
    ((enum1 s l).flatMap slideEventsAt).Pairwise (fun a b => a.1 ≤ b.1) := by
  induction l generalizing s with
  | nil => simp [enum1]
  | cons a t ih =>
    simp only [enum1, List.flatMap_cons]
    rw [List.pairwise_append]
    refine ⟨?_, ih (s + 1), ?_⟩
    · refine List.pairwise_of_forall_mem_list ?_
      intro x hx y hy
      have h1 := slideEventsAt_fst (s, a) x hx
      have h2 := slideEventsAt_fst (s, a) y hy
      omega
    · intro x hx y hy
      have h1 := slideEventsAt_fst (s, a) x hx
      have h2 := events_fst_lb y hy
      omega

theorem events_filter_fst (s : Nat) (l : List Slide) (i : Nat) (a : Slide)
    (h : (i, a) ∈ enum1 s l) :
    ((enum1 s l).flatMap slideEventsAt).filter (fun x => x.1 = i) = slideEventsAt (i, a) := by
  induction l generalizing s with
  | nil => cases h
  | cons b t ih =>
    simp only [enum1] at h ⊢
    rw [List.flatMap_cons, List.filter_append]
    rcases List.mem_cons.mp h with h1 | h2
    · have hblock : (slideEventsAt (s, b)).filter (fun x => x.1 = i) = slideEventsAt (s, b) := by
        rw [List.filter_eq_self]
        intro x hx
        have := slideEventsAt_fst (s, b) x hx
        simp only [decide_eq_true_eq]
        rw [this]
        exact (congrArg Prod.fst h1.symm)
      have hrest : ((enum1 (s + 1) t).flatMap slideEventsAt).filter (fun x => x.1 = i) = [] := by
        rw [List.filter_eq_nil_iff]
        intro x hx
        have := events_fst_lb x hx
        simp only [decide_eq_true_eq]
        have hi : i = s := congrArg Prod.fst h1
        omega
      rw [hblock, hrest, List.append_nil, ← h1]
    · have hi : s + 1 ≤ i := (enum1_mem_bounds (s + 1) t (i, a) h2).1
      have hblock : (slideEventsAt (s, b)).filter (fun x => x.1 = i) = [] := by
        rw [List.filter_eq_nil_iff]
        intro x hx
        have := slideEventsAt_fst (s, b) x hx
        simp only [decide_eq_true_eq]
        omega
      rw [hblock, List.nil_append]
      exact ih (s + 1) h2

/-! ## Lemmas about the media registry fold -/

theorem regLookup_append (r : List (MediaKey × RegEntry)) (k1 : MediaKey) (e1 : RegEntry)
    (k : MediaKey) :
    regLookup (r ++ [(k1, e1)]) k =
      match regLookup r k with
      | some e => some e
      | none => if k1 = k then some e1 else none := by
  induction r with
  | nil => simp [regLookup]
  | cons he t ih =>
    by_cases hk : he.1 = k
    · simp [regLookup, hk]
    · simp only [List.cons_append, regLookup, if_neg hk]
      exact ih

theorem regLookup_appendSlide (r : List (MediaKey × RegEntry)) (k1 : MediaKey) (i : Nat)
    (k : MediaKey) :
    regLookup (regAppendSlide r k1 i) k =
      if k1 = k then
        (regLookup r k).map (fun e => { e with slides := e.slides ++ [i] })
      else regLookup r k := by
  induction r with
  | nil => by_cases hk : k1 = k <;> simp [regAppendSlide, regLookup, hk]
  | cons he t ih =>
    by_cases h1 : he.1 = k1
    · by_cases hk : k1 = k
      · simp [regAppendSlide, regLookup, h1, hk]
      · have h2 : ¬ he.1 = k := by rw [h1]; exact hk
        simp [regAppendSlide, regLookup, h1, h2, hk]
    · by_cases hk : he.1 = k
      · by_cases h3 : k1 = k
        · exact absurd (h3 ▸ hk : he.1 = k1) h1
        · have h4 : ¬ k = k1 := fun hcontra => h3 hcontra.symm
          simp [regAppendSlide, regLookup, h1, hk, h3, h4]
      · simp only [regAppendSlide, if_neg h1, regLookup, if_neg hk]
        exact ih

theorem regLookup_regStep (r : List (MediaKey × RegEntry)) (ev : Nat × RefEvent)
    (k : MediaKey) :
    regLookup (regStep r ev) k =
      if ev.2.key = k then
        match regLookup r k with
        | none =>
            some { size := ev.2.size_bytes, type := ev.2.type,
                   content_type := ev.2.content_type, filename := ev.2.reg_filename,
                   slides := [ev.1], first_slide := ev.1 }
        | some e => some { e with slides := e.slides ++ [ev.1] }
      else regLookup r k := by
  unfold regStep
  by_cases hk : ev.2.key = k
  · subst hk
    cases hl : regLookup r ev.2.key with
    | none => rw [regLookup_append, hl]
    | some e => rw [regLookup_appendSlide, if_pos rfl, hl]; simp
  · cases hl : regLookup r ev.2.key with
    | none =>
      rw [regLookup_append]
      cases hl2 : regLookup r k with
      | none => simp [if_neg hk, hl2]
      | some e => simp [hl2, if_neg hk]
    | some e => rw [regLookup_appendSlide, if_neg hk, if_neg hk]

theorem regLookup_foldl (es : List (Nat × RefEvent)) :
    ∀ (r0 : List (MediaKey × RegEntry)) (k : MediaKey),
      regLookup (es.foldl regStep r0) k =
        match regLookup r0 k with
        | some e => some { e with slides := e.slides ++ (occsL es k).map (fun x => x.1) }
        | none => regEntryFor es k := by
  induction es with
  | nil =>
    intro r0 k
    cases hl : regLookup r0 k <;> simp [occsL, regEntryFor, hl]
  | cons ev es ih =>
    intro r0 k
    rw [List.foldl_cons, ih (regStep r0 ev) k, regLookup_regStep]
    by_cases hk : ev.2.key = k
    · rw [if_pos hk]
      have hocc : occsL (ev :: es) k = ev :: occsL es k := by
        simp [occsL, List.filter_cons, hk]
      cases hl : regLookup r0 k with
      | none =>
        simp only [hl]
        unfold regEntryFor
        rw [hocc]
        simp [occsL]
      | some e =>
        simp only [hl]
        rw [hocc]
        simp
    · rw [if_neg hk]
      have hocc : occsL (ev :: es) k = occsL es k := by
        simp [occsL, List.filter_cons, hk]
      have hreg : regEntryFor (ev :: es) k = regEntryFor es k := by
        unfold regEntryFor
        rw [hocc]
      cases hl : regLookup r0 k <;> simp [hl, hocc, hreg]

theorem scan_reg (es : List (Nat × RefEvent)) :
    ∀ st : ScanState, (es.foldl scanStep st).reg = es.foldl regStep st.reg := by
  induction es with
  | nil => intro st; rfl
  | cons ev es ih =>
    intro st
    rw [List.foldl_cons, List.foldl_cons, ih]
    rfl

theorem scan_refs_strip (es : List (Nat × RefEvent)) :
    ∀ st : ScanState,
      ((es.foldl scanStep st).refs).map stripR = st.refs.map stripR ++ es.map stripE := by
  induction es with
  | nil => intro st; simp
  | cons ev es ih =>
    intro st
    rw [List.foldl_cons, ih]
    simp [scanStep, stripR, stripE]

theorem regLookup_scanPres (p : Presentation) (k : MediaKey) :
    regLookup (scanPres p).reg k = regEntryFor (allEvents p) k := by
  unfold scanPres
  rw [scan_reg]
  have h := regLookup_foldl (allEvents p) [] k
  simpa [regLookup] using h

theorem refs_strip (p : Presentation) :
    ((scanPres p).refs).map stripR = (allEvents p).map stripE := by
  unfold scanPres
  rw [scan_refs_strip]
  simp

theorem mem_refs_event (p : Presentation) (i : Nat) (r : SlideRef)
    (h : (i, r) ∈ (scanPres p).refs) :
    ∃ ev, ev ∈ allEvents p ∧ stripR (i, r) = stripE ev := by
  have h2 : stripR (i, r) ∈ ((scanPres p).refs).map stripR := List.mem_map_of_mem _ h
  rw [refs_strip] at h2
  rcases List.mem_map.mp h2 with ⟨ev, hev, heq⟩
  exact ⟨ev, hev, heq.symm⟩

theorem event_blob_size (p : Presentation) :
    ∀ x ∈ allEvents p, ∀ b : List Nat, x.2.key = .blobKey b → x.2.size_bytes = b.length := by
  intro x hx b hkey
  rcases List.mem_flatMap.mp hx with ⟨is, _, hx2⟩
  rcases List.mem_filterMap.mp hx2 with ⟨sh, _, hsh⟩
  rcases Option.map_eq_some'.mp hsh with ⟨e, hce, hx3⟩
  have he2 : x.2 = e := by rw [← hx3]
  rw [he2] at hkey ⊢
  cases sh with
  | picture img w h =>
    cases img with
    | none => simp [classifyShape] at hce
    | some ip =>
      simp only [classifyShape, Option.some.injEq] at hce
      rw [← hce] at hkey ⊢
      simp only [MediaKey.blobKey.injEq] at hkey
      simp [← hkey]
  | media mf part =>
    cases mf with
    | false => simp [classifyShape] at hce
    | true =>
      cases part with
      | none => simp [classifyShape] at hce
      | some mp =>
        simp only [classifyShape, Option.some.injEq] at hce
        rw [← hce] at hkey
        simp at hkey
  | nonMedia => simp [classifyShape] at hce

/-! ## Claim C1 -/

/-- C1: attribution of media bytes.  Each media reference is attributed its
full byte size iff shared media are included, or the asset appears once, or
the slide is the asset's first slide (which is the minimum appearance
index); otherwise zero.  Its `shared` flag records sharing independently of
attribution; blob-keyed (image) references of one asset all have the
asset's byte size; the built item sits on that slide's record in the
output of `analyze_pptx_media`. -/
theorem claim_C1 (p : Presentation) (include_shared_media : Bool) (i : Nat) (r : SlideRef)
    (h : (i, r) ∈ (scanPres p).refs) : C1Concl p include_shared_media i r := by
  obtain ⟨ev, hev, hstrip⟩ := mem_refs_event p i r h
  have hi : i = ev.1 := congrArg (fun t => t.1) hstrip
  have hkey : r.key = ev.2.key := congrArg (fun t => t.2.1) hstrip
  have hsize : r.size_bytes = ev.2.size_bytes := congrArg (fun t => t.2.2.2.1) hstrip
  have hoccmem : ev ∈ occsL (allEvents p) r.key := by
    rw [hkey]
    exact List.mem_filter.mpr ⟨hev, by simp⟩
  cases hocck : occsL (allEvents p) r.key with
  | nil => rw [hocck] at hoccmem; cases hoccmem
  | cons e0 rest =>
    have hreg : regLookup (scanPres p).reg r.key =
        some { size := e0.2.size_bytes, type := e0.2.type,
               content_type := e0.2.content_type, filename := e0.2.reg_filename,
               slides := (e0 :: rest).map (fun x => x.1), first_slide := e0.1 } := by
      rw [regLookup_scanPres]
      unfold regEntryFor
      rw [hocck]
    have happ : appearSlides p r.key = (e0 :: rest).map (fun x => x.1) := by
      unfold appearSlides occs
      exact congrArg _ hocck
    have hfsk : firstSlideKey p r.key = some e0.1 := by
      unfold firstSlideKey
      rw [happ]
      rfl
    unfold C1Concl
    refine ⟨?_, ?_, ?_, ?_, ?_⟩
    · simp only [mkItem, countBytes, hreg, happ, hfsk]
      have hiff : (include_shared_media ||
            !decide (1 < ((e0 :: rest).map (fun x => x.1)).length) || decide (e0.1 = i)) = true ↔
          (include_shared_media = true ∨ ((e0 :: rest).map (fun x => x.1)).length = 1 ∨
            some e0.1 = some i) := by
        simp only [List.length_map, List.length_cons, Bool.or_eq_true, Bool.not_eq_eq_eq_not,
          Bool.not_true, decide_eq_false_iff_not, decide_eq_true_eq, Option.some.injEq]
        have harith : ¬ (1 < rest.length + 1) ↔ rest.length + 1 = 1 := by omega
        rw [harith]
        tauto
      exact if_congr hiff rfl rfl
    · simp only [mkItem, hreg, happ]
    · refine ⟨e0.1, hfsk, ?_⟩
      intro j hj
      have hsorted : (occsL (allEvents p) r.key).Pairwise (fun a b => a.1 ≤ b.1) :=
        List.Pairwise.sublist (List.filter_sublist _) (events_fst_sorted 1 p.slides)
      rw [hocck] at hsorted
      rw [happ] at hj
      rcases List.mem_map.mp hj with ⟨x, hx, hxj⟩
      rcases List.mem_cons.mp hx with hx1 | hx2
      · rw [← hxj, hx1]
      · rw [← hxj]
        exact (List.pairwise_cons.mp hsorted).1 x hx2
    · intro b hb
      rw [hkey] at hb
      rw [hsize]
      exact event_blob_size p ev hev b hb
    · have hlb : 1 ≤ ev.1 := events_fst_lb ev hev
      have hub : ev.1 < 1 + p.slides.length := events_fst_ub ev hev
      have hk : ev.1 - 1 < p.slides.length := by omega
      have hmem1 := enum1_get_mem 1 p.slides (ev.1 - 1) hk
      have h1i : 1 + (ev.1 - 1) = i := by omega
      rw [h1i] at hmem1
      refine ⟨slideStats include_shared_media (scanPres p).reg (scanPres p).refs i
        (p.slides.get ⟨ev.1 - 1, hk⟩), ?_, rfl, ?_⟩
      · unfold analyze_pptx_media
        rw [List.mem_mergeSort]
        unfold preStats
        exact List.mem_map.mpr ⟨(i, p.slides.get ⟨ev.1 - 1, hk⟩), hmem1, rfl⟩
      · show mkItem include_shared_media (scanPres p).reg i r ∈
          (refsFor (scanPres p).refs i).map (mkItem include_shared_media (scanPres p).reg i)
        refine List.mem_map_of_mem _ ?_
        unfold refsFor
        exact List.mem_map.mpr ⟨(i, r), List.mem_filter.mpr ⟨h, by simp⟩, rfl⟩

/-- Witness for C1: in `presW` the shared image is stored on slide 1 with
full attribution data. -/
theorem claim_C1_witness :
    ((1, refW) ∈ (scanPres presW).refs) ∧ C1Concl presW false 1 refW :=
  ⟨by decide, claim_C1 presW false 1 refW (by decide)⟩

/-! ## Claim C8 -/

theorem refs_fst_nil (p : Presentation) (i : Nat)
    (hevents : (allEvents p).filter (fun x => x.1 = i) = []) :
    refsFor (scanPres p).refs i = [] := by
  unfold refsFor
  have hfil : ((scanPres p).refs).filter (fun x => x.1 = i) = [] := by
    rw [List.filter_eq_nil_iff]
    intro x hx
    simp only [decide_eq_true_eq]
    intro hxi
    have h2 : stripR x ∈ ((scanPres p).refs).map stripR := List.mem_map_of_mem _ hx
    rw [refs_strip] at h2
    rcases List.mem_map.mp h2 with ⟨ev, hev, heq⟩
    have hev1 : ev.1 = i := by
      have h3 := congrArg (fun t => t.1) heq
      simp only [stripE, stripR] at h3
      rw [h3, hxi]
    have h4 : ev ∈ (allEvents p).filter (fun x2 => x2.1 = i) :=
      List.mem_filter.mpr ⟨hev, by simp [hev1]⟩
    rw [hevents] at h4
    cases h4
  rw [hfil]
  rfl

/-- C8: a slide with no classified media still yields a record with all
byte totals zero and an empty item list. -/
theorem claim_C8 (p : Presentation) (include_shared_media : Bool) (i : Nat) (s : Slide)
    (h1 : (i, s) ∈ enum1 1 p.slides)
    (h2 : s.shapes.filterMap classifyShape = []) :
    C8Concl p include_shared_media i s := by
  have hblock : slideEventsAt (i, s) = [] := by
    unfold slideEventsAt
    rw [← List.map_filterMap classifyShape (fun e => ((i, s).1, e)) s.shapes]
    rw [h2]
    rfl
  have hevents : (allEvents p).filter (fun x => x.1 = i) = [] := by
    rw [allEvents_eq, events_filter_fst 1 p.slides i s h1]
    exact hblock
  have hrefs := refs_fst_nil p i hevents
  refine ⟨slideStats include_shared_media (scanPres p).reg (scanPres p).refs i s,
    ?_, rfl, rfl, ?_, ?_, ?_, ?_, ?_, ?_⟩
  · unfold analyze_pptx_media
    rw [List.mem_mergeSort]
    unfold preStats
    exact List.mem_map.mpr ⟨(i, s), h1, rfl⟩
  · simp [slideStats, hrefs]
  · simp [slideStats, hrefs]
  · simp [slideStats, hrefs]
  · simp [slideStats, hrefs]
  · simp [slideStats, hrefs]
  · simp [slideStats, hrefs]

/-- Witness for C8: slide 3 of `presW` has no media. -/
theorem claim_C8_witness :
    ((3, ({ title := some "C", slide_layout_id := 10, shapes := [] } : Slide)) ∈
        enum1 1 presW.slides) ∧
    (([] : List Shape).filterMap classifyShape = []) ∧
    C8Concl presW false 3 { title := some "C", slide_layout_id := 10, shapes := [] } :=
  ⟨by decide, by decide,
    claim_C8 presW false 3 { title := some "C", slide_layout_id := 10, shapes := [] }
      (by decide) (by decide)⟩

/-! ## Claim C5 -/

theorem pair_sublist_of_get {α : Type} (l : List α) (i j : Nat) (hij : i < j)
    (hj : j < l.length) :
    [l.get ⟨i, Nat.lt_trans hij hj⟩, l.get ⟨j, hj⟩].Sublist l := by
  induction l generalizing i j with
  | nil => cases hj
  | cons a t ih =>
    cases j with
    | zero => omega
    | succ j2 =>
      cases i with
      | zero =>
        refine List.Sublist.cons₂ a ?_
        rw [List.singleton_sublist]
        exact List.get_mem _ _ _
      | succ i2 =>
        exact List.Sublist.cons a (ih i2 j2 (by omega) (by simpa using hj))

theorem preStats_length (p : Presentation) (inc : Bool) :
    (preStats p inc).length = p.slides.length := by
  unfold preStats
  rw [List.length_map, enum1_length]

theorem preStats_get (p : Presentation) (inc : Bool) (k : Nat) (hk : k < p.slides.length) :
    (preStats p inc).get ⟨k, by rw [preStats_length]; exact hk⟩ =
      slideStats inc (scanPres p).reg (scanPres p).refs (1 + k) (p.slides.get ⟨k, hk⟩) := by
  unfold preStats
  rw [List.get_map, enum1_get 1 p.slides k hk]

theorem mem_preStats_pos (p : Presentation) (inc : Bool) (x : SlideMediaStats)
    (hx : x ∈ preStats p inc) :
    ∃ k, ∃ (hk : k < p.slides.length),
      x = slideStats inc (scanPres p).reg (scanPres p).refs (1 + k) (p.slides.get ⟨k, hk⟩) ∧
      x.slide_index = 1 + k := by
  rcases List.mem_iff_get.mp hx with ⟨⟨k, hk⟩, hget⟩
  have hk2 : k < p.slides.length := by
    have h2 := hk
    rwa [preStats_length] at h2
  have h3 : x = slideStats inc (scanPres p).reg (scanPres p).refs (1 + k)
      (p.slides.get ⟨k, hk2⟩) := by
    rw [← preStats_get p inc k hk2]
    exact hget.symm
  exact ⟨k, hk2, h3, by rw [h3]; exact rfl⟩

theorem statsLE_trans : ∀ (a b c : SlideMediaStats),
    statsLE a b = true → statsLE b c = true → statsLE a c = true := by
  intro a b c hab hbc
  simp only [statsLE, decide_eq_true_eq] at hab hbc ⊢
  omega

theorem statsLE_total : ∀ (a b : SlideMediaStats), statsLE a b || statsLE b a := by
  intro a b
  simp only [statsLE, decide_eq_true_eq, Bool.or_eq_true]
  omega

/-- C5: one record per slide, sorted by `total_media_bytes` descending, with
ties keeping ascending slide order (stability). -/
theorem claim_C5 (p : Presentation) (include_shared_media : Bool) :
    C5Concl p include_shared_media := by
  unfold C5Concl
  refine ⟨?_, ?_, ?_, ?_⟩
  · unfold analyze_pptx_media
    rw [List.length_mergeSort, preStats_length]
  · have hperm : (analyze_pptx_media p include_shared_media).Perm
        (preStats p include_shared_media) := List.mergeSort_perm _ _
    have hmap : (preStats p include_shared_media).map (fun st => st.slide_index) =
        (enum1 1 p.slides).map Prod.fst := by
      unfold preStats
      rw [List.map_map]
      rfl
    have h2 := hperm.map (fun st => st.slide_index)
    rw [hmap, enum1_map_fst] at h2
    exact h2
  · have hs := List.sorted_mergeSort statsLE_trans statsLE_total
      (preStats p include_shared_media)
    exact hs.imp (fun h => by simpa [statsLE] using h)
  · intro a b ha hb htot hlt
    have ha2 : a ∈ preStats p include_shared_media := List.mem_mergeSort.mp ha
    have hb2 : b ∈ preStats p include_shared_media := List.mem_mergeSort.mp hb
    rcases mem_preStats_pos p include_shared_media a ha2 with ⟨ka, hka, haeq, haidx⟩
    rcases mem_preStats_pos p include_shared_media b hb2 with ⟨kb, hkb, hbeq, hbidx⟩
    have hkab : ka < kb := by
      rw [haidx, hbidx] at hlt
      omega
    have hkb2 : kb < (preStats p include_shared_media).length := by
      rw [preStats_length]
      exact hkb
    have hsub : [(preStats p include_shared_media).get ⟨ka, Nat.lt_trans hkab hkb2⟩,
        (preStats p include_shared_media).get ⟨kb, hkb2⟩].Sublist
          (preStats p include_shared_media) :=
      pair_sublist_of_get _ ka kb hkab hkb2
    have hga : (preStats p include_shared_media).get ⟨ka, Nat.lt_trans hkab hkb2⟩ = a := by
      rw [preStats_get p include_shared_media ka hka]
      exact haeq.symm
    have hgb : (preStats p include_shared_media).get ⟨kb, hkb2⟩ = b := by
      rw [preStats_get p include_shared_media kb hkb]
      exact hbeq.symm
    rw [hga, hgb] at hsub
    exact List.pair_sublist_mergeSort statsLE_trans statsLE_total
      (by simp [statsLE, htot]) hsub

/-! ## Lemmas about the layout-usage map -/

theorem usageLookup_add (m : List (Nat × List Nat)) (k1 i k : Nat) :
    usageLookup (usageAdd m k1 i) k =
      if k1 = k then some ((usageLookup m k).getD [] ++ [i]) else usageLookup m k := by
  induction m with
  | nil => by_cases hk : k1 = k <;> simp [usageAdd, usageLookup, hk]
  | cons he t ih =>
    by_cases h1 : he.1 = k1
    · by_cases hk : k1 = k
      · simp [usageAdd, usageLookup, h1, hk]
      · have h2 : ¬ he.1 = k := by rw [h1]; exact hk
        simp [usageAdd, usageLookup, h1, h2, hk]
    · by_cases hk : he.1 = k
      · by_cases h3 : k1 = k
        · exact absurd (h3 ▸ hk : he.1 = k1) h1
        · have h4 : ¬ k = k1 := fun hcontra => h3 hcontra.symm
          simp [usageAdd, usageLookup, h1, hk, h3, h4]
      · simp only [usageAdd, if_neg h1, usageLookup, if_neg hk]
        exact ih

theorem usageLookup_foldl (xs : List (Nat × Slide)) :
    ∀ (m0 : List (Nat × List Nat)) (k : Nat),
      usageLookup (xs.foldl (fun m is => usageAdd m is.2.slide_layout_id is.1) m0) k =
        if (xs.filter (fun is => is.2.slide_layout_id = k)) = [] then usageLookup m0 k
        else some ((usageLookup m0 k).getD [] ++
          (xs.filter (fun is => is.2.slide_layout_id = k)).map (fun is => is.1)) := by
  induction xs with
  | nil => intro m0 k; simp
  | cons x xs ih =>
    intro m0 k
    rw [List.foldl_cons, ih (usageAdd m0 x.2.slide_layout_id x.1) k, usageLookup_add]
    by_cases hk : x.2.slide_layout_id = k
    · have hfil : (x :: xs).filter (fun is => is.2.slide_layout_id = k) =
          x :: xs.filter (fun is => is.2.slide_layout_id = k) := by
        simp [List.filter_cons, hk]
      rw [hfil, if_pos hk]
      by_cases hxs : xs.filter (fun is => is.2.slide_layout_id = k) = []
      · simp [hxs]
      · simp [hxs]
    · have hfil : (x :: xs).filter (fun is => is.2.slide_layout_id = k) =
          xs.filter (fun is => is.2.slide_layout_id = k) := by
        simp [List.filter_cons, hk]
      rw [hfil, if_neg hk]

theorem usage_getD (p : Presentation) (k : Nat) :
    (usageLookup (buildLayoutUsage p) k).getD [] =
      ((enum1 1 p.slides).filter (fun is => is.2.slide_layout_id = k)).map
        (fun is => is.1) := by
  unfold buildLayoutUsage
  rw [usageLookup_foldl]
  by_cases hfil : (enum1 1 p.slides).filter (fun is => is.2.slide_layout_id = k) = []
  · simp [hfil, usageLookup]
  · simp [hfil, usageLookup]

/-! ## Generic accumulation lemmas -/

theorem foldl_add_init {α : Type} (f : α → Nat) (l : List α) :
    ∀ a : Nat, l.foldl (fun acc x => acc + f x) a = a + (l.map f).sum := by
  induction l with
  | nil => intro a; simp
  | cons x t ih => intro a; simp [ih]; omega

theorem sum_map_ite_unused (l : List LayoutMediaStats) :
    (l.map (fun ls => if ls.is_used then 0 else ls.total_media_bytes)).sum =
      ((l.filter (fun ls => ls.is_used = false)).map (fun ls => ls.total_media_bytes)).sum := by
  induction l with
  | nil => rfl
  | cons a t ih => cases ha : a.is_used <;> simp [List.filter_cons, ha, ih]

theorem sum_flatMap_filter {α β : Type} (l : List α) (g : α → List β) (pred : β → Bool)
    (t : β → Nat) :
    (((l.flatMap g).filter pred).map t).sum =
      (l.map (fun m => (((g m).filter pred).map t).sum)).sum := by
  induction l with
  | nil => rfl
  | cons x xs ih =>
    rw [List.flatMap_cons, List.filter_append, List.map_append, List.sum_append, ih]
    rfl

theorem mem_enum1_snd {α : Type} (l : List α) (a : α) :
    a ∈ l ↔ ∃ i, (i, a) ∈ enum1 1 l := by
  constructor
  · intro h
    rcases List.mem_iff_get.mp h with ⟨⟨k, hk⟩, hget⟩
    refine ⟨1 + k, ?_⟩
    rw [← hget]
    exact enum1_get_mem 1 l k hk
  · rintro ⟨i, hi⟩
    have h2 : a ∈ (enum1 1 l).map Prod.snd := List.mem_map_of_mem _ hi
    rwa [enum1_map_snd] at h2

/-! ## Claim C3 -/

theorem layoutStat_unused_iff (usage : List (Nat × List Nat)) (li : Nat) (ll : Layout) :
    (layoutStatFor usage li ll).is_used = false ↔
      (layoutStatFor usage li ll).slides_using = [] := by
  show (decide (0 < ((usageLookup usage ll.lid).getD []).length) = false) ↔ _
  simp only [decide_eq_false_iff_not, Nat.not_lt, Nat.le_zero, List.length_eq_zero]
  exact Iff.rfl

theorem masterStat_unused_eq (u : List (Nat × List Nat)) (mi : Nat) (mm : Master) :
    (masterStatFor u mi mm).unused_layout_bytes =
      (((masterStatFor u mi mm).layouts.filter (fun ls => ls.slides_using = [])).map
        (fun ls => ls.total_media_bytes)).sum := by
  have hlay : (masterStatFor u mi mm).layouts =
      (enum1 1 mm.layouts).map (fun il => layoutStatFor u il.1 il.2) := rfl
  have hub : (masterStatFor u mi mm).unused_layout_bytes =
      ((masterStatFor u mi mm).layouts.foldl
        (fun acc ls => acc + if ls.is_used then 0 else ls.total_media_bytes) 0) := rfl
  rw [hub, foldl_add_init (fun ls => if ls.is_used then 0 else ls.total_media_bytes)
    (masterStatFor u mi mm).layouts 0, Nat.zero_add, sum_map_ite_unused]
  congr 1
  congr 1
  apply List.filter_congr
  intro x hx
  rw [hlay] at hx
  rcases List.mem_map.mp hx with ⟨il, _, hxe⟩
  rw [← hxe]
  exact decide_eq_decide.mpr (layoutStat_unused_iff u il.1 il.2)

/-- C3: layout usage is decided by object (`id`) identity, never by name;
`slides_using` lists exactly the 1-based referencing slide indices; the
per-master and report-level unused-layout byte aggregates are the sums of
`total_media_bytes` over layouts with an empty using-slide set. -/
theorem claim_C3 (p : Presentation) : C3Concl p := by
  unfold C3Concl
  constructor
  · intro mi mm hmm
    refine ⟨masterStatFor (buildLayoutUsage p) mi mm, ?_, rfl, ?_, ?_⟩
    · exact List.mem_map.mpr ⟨(mi, mm), hmm, rfl⟩
    · intro li ll hll
      refine ⟨layoutStatFor (buildLayoutUsage p) li ll, ?_, rfl, ?_, ?_⟩
      · exact List.mem_map.mpr ⟨(li, ll), hll, rfl⟩
      · show (decide (0 < ((usageLookup (buildLayoutUsage p) ll.lid).getD []).length) = true) ↔ _
        rw [usage_getD]
        simp only [decide_eq_true_eq, List.length_map, List.length_pos]
        constructor
        · intro hne
          rcases List.exists_mem_of_ne_nil _ hne with ⟨x, hxmem⟩
          rcases List.mem_filter.mp hxmem with ⟨hxenum, hxpred⟩
          refine ⟨x.2, (mem_enum1_snd p.slides x.2).mpr ⟨x.1, hxenum⟩, ?_⟩
          simpa using hxpred
        · rintro ⟨s, hs, hpred⟩
          rcases (mem_enum1_snd p.slides s).mp hs with ⟨i, hi⟩
          intro hnil
          have h4 : (i, s) ∈ (enum1 1 p.slides).filter
              (fun is => is.2.slide_layout_id = ll.lid) :=
            List.mem_filter.mpr ⟨hi, by simp [hpred]⟩
          rw [hnil] at h4
          cases h4
      · show ((usageLookup (buildLayoutUsage p) ll.lid).getD []) = _
        rw [usage_getD]
    · exact masterStat_unused_eq (buildLayoutUsage p) mi mm
  · have hlhs : (analyze_slide_masters p).unused_layout_media_bytes =
        (((enum1 1 p.masters).map
          (fun im => masterStatFor (buildLayoutUsage p) im.1 im.2)).foldl
            (fun acc ms => acc + ms.unused_layout_bytes) 0) := rfl
    have hms : (analyze_slide_masters p).masters =
        (enum1 1 p.masters).map (fun im => masterStatFor (buildLayoutUsage p) im.1 im.2) := rfl
    rw [hlhs, foldl_add_init (fun ms => ms.unused_layout_bytes)
      ((enum1 1 p.masters).map (fun im => masterStatFor (buildLayoutUsage p) im.1 im.2)) 0,
      Nat.zero_add, hms,
      sum_flatMap_filter
        ((enum1 1 p.masters).map (fun im => masterStatFor (buildLayoutUsage p) im.1 im.2))
        (fun ms => ms.layouts) (fun ls => decide (ls.slides_using = []))
        (fun ls => ls.total_media_bytes)]
    congr 1
    apply List.map_congr_left
    intro ms hms2
    rcases List.mem_map.mp hms2 with ⟨im, _, hmse⟩
    rw [← hmse]
    exact masterStat_unused_eq (buildLayoutUsage p) im.1 im.2

/-- Witness for C3 at the concrete `presW`. -/
theorem claim_C3_witness : C3Concl presW := claim_C3 presW

/-! ## Claim C4 -/

theorem sublist_flatMap_of_mem {α β : Type} (L : List α) (g : α → List β) (x : α)
    (h : x ∈ L) : (g x).Sublist (L.flatMap g) := by
  rw [List.flatMap_def]
  exact List.sublist_flatten_of_mem (List.mem_map_of_mem g h)

theorem eraseP_lid (ls : List Layout) (k : Nat)
    (h : (ls.map (fun l => l.lid)).Nodup) :
    ls.eraseP (fun x => decide (x.lid = k)) = ls.filter (fun x => ! decide (x.lid = k)) := by
  induction ls with
  | nil => rfl
  | cons a t ih =>
    rw [List.map_cons, List.nodup_cons] at h
    by_cases ha : a.lid = k
    · have hfil : t.filter (fun x => ! decide (x.lid = k)) = t := by
        rw [List.filter_eq_self]
        intro x hx
        simp only [Bool.not_eq_eq_eq_not, Bool.not_true, decide_eq_false_iff_not]
        intro hxk
        exact h.1 (by rw [ha, ← hxk]; exact List.mem_map_of_mem _ hx)
      simp [List.eraseP_cons, List.filter_cons, ha, hfil]
    · simp [List.eraseP_cons, List.filter_cons, ha, ih h.2]

theorem delFold (ds : List (Layout × Nat)) :
    ∀ (ls : List Layout) (c b : Nat),
      (ls.map (fun l => l.lid)).Nodup →
      (∀ x ∈ ds, x.1.lid ∈ ls.map (fun l => l.lid)) →
      (ds.map (fun x => x.1.lid)).Nodup →
      (ds.foldl (fun (acc : List Layout × Nat × Nat) lb =>
          if acc.1.any (fun x => x.lid = lb.1.lid) then
            (acc.1.eraseP (fun x => decide (x.lid = lb.1.lid)), acc.2.1 + 1, acc.2.2 + lb.2)
          else acc) (ls, c, b)) =
        (ls.filter (fun l => ! (ds.any (fun x => x.1.lid = l.lid))), c + ds.length,
          b + (ds.map (fun x => x.2)).sum) := by
  induction ds with
  | nil =>
    intro ls c b _ _ _
    simp
  | cons d ds ih =>
    intro ls c b hnodup hsub hdist
    have hdmem : d.1.lid ∈ ls.map (fun l => l.lid) := hsub d (List.mem_cons_self d ds)
    have hany : ls.any (fun x => x.lid = d.1.lid) = true := by
      rcases List.mem_map.mp hdmem with ⟨l0, hl0, hle⟩
      exact List.any_eq_true.mpr ⟨l0, hl0, by simp [hle]⟩
    rw [List.foldl_cons]
    rw [if_pos hany]
    rw [List.map_cons, List.nodup_cons] at hdist
    have hsub2 : ∀ x ∈ ds, x.1.lid ∈
        (ls.eraseP (fun x => decide (x.lid = d.1.lid))).map (fun l => l.lid) := by
      intro x hx
      rw [eraseP_lid ls d.1.lid hnodup]
      have hne : x.1.lid ≠ d.1.lid := by
        intro hcontra
        exact hdist.1 (hcontra ▸ List.mem_map_of_mem _ hx)
      rcases List.mem_map.mp (hsub x (List.mem_cons_of_mem d hx)) with ⟨l0, hl0, hle⟩
      rw [← hle]
      refine List.mem_map_of_mem _ (List.mem_filter.mpr ⟨hl0, ?_⟩)
      simp only [Bool.not_eq_eq_eq_not, Bool.not_true, decide_eq_false_iff_not]
      rw [hle]
      exact hne
    have hnodup2 : ((ls.eraseP (fun x => decide (x.lid = d.1.lid))).map
        (fun l => l.lid)).Nodup := by
      rw [eraseP_lid ls d.1.lid hnodup]
      exact ((List.filter_sublist ls).map (fun l => l.lid)).nodup hnodup
    rw [ih _ (c + 1) (b + d.2) hnodup2 hsub2 hdist.2]
    refine Prod.ext ?_ (Prod.ext (by simp; omega) (by simp [List.sum_cons]; omega))
    rw [eraseP_lid ls d.1.lid hnodup, List.filter_filter]
    simp only [List.any_cons]
    apply List.filter_congr
    intro x _
    simp only [Bool.not_or, Bool.not_eq_eq_eq_not, Bool.not_true, Bool.and_comm]
    have hsy : decide (x.lid = d.1.lid) = decide (d.1.lid = x.lid) :=
      decide_eq_decide.mpr eq_comm
    rw [hsy]

theorem any_map2 {α β : Type} (f : α → β) (p : β → Bool) (l : List α) :
    (l.map f).any p = l.any (fun x => p (f x)) := by
  induction l with
  | nil => rfl
  | cons a t ih => simp [List.any_cons, ih]

theorem deleteFromMaster_eq (used : List Nat) (m : Master)
    (h : (m.layouts.map (fun l => l.lid)).Nodup) :
    deleteFromMaster used m =
      ({ m with layouts := m.layouts.filter (fun l => used.contains l.lid) },
        (m.layouts.filter (fun l => ! used.contains l.lid)).length,
        ((m.layouts.filter (fun l => ! used.contains l.lid)).map
          (fun l => pictureBytes l.shapes)).sum) := by
  simp only [deleteFromMaster]
  have hds : ∀ x ∈ (m.layouts.filter (fun l => ! used.contains l.lid)).map
      (fun l => (l, pictureBytes l.shapes)), x.1.lid ∈ m.layouts.map (fun l => l.lid) := by
    intro x hx
    rcases List.mem_map.mp hx with ⟨l0, hl0, hle⟩
    rw [← hle]
    exact List.mem_map_of_mem _ (List.mem_of_mem_filter hl0)
  have hdist : (((m.layouts.filter (fun l => ! used.contains l.lid)).map
      (fun l => (l, pictureBytes l.shapes))).map (fun x => x.1.lid)).Nodup := by
    rw [List.map_map]
    exact ((List.filter_sublist m.layouts).map _).nodup h
  have hd := delFold ((m.layouts.filter (fun l => ! used.contains l.lid)).map
    (fun l => (l, pictureBytes l.shapes))) m.layouts 0 0 h hds hdist
  rw [hd]
  have hfil : m.layouts.filter (fun l =>
      ! (((m.layouts.filter (fun l2 => ! used.contains l2.lid)).map
        (fun l2 => (l2, pictureBytes l2.shapes))).any (fun x => x.1.lid = l.lid))) =
      m.layouts.filter (fun l => used.contains l.lid) := by
    apply List.filter_congr
    intro l hl
    rw [any_map2]
    by_cases hc : used.contains l.lid = true
    · rw [hc]
      simp only [Bool.not_eq_eq_eq_not, Bool.not_true, Bool.not_eq_true]
      rw [List.any_eq_false]
      intro l2 hl2
      rcases List.mem_filter.mp hl2 with ⟨hl2m, hl2p⟩
      simp only [decide_eq_true_eq]
      intro hcontra
      have hll : l2 = l := List.inj_on_of_nodup_map h hl2m hl hcontra
      rw [hll] at hl2p
      simp [hc] at hl2p
      exact hl2p (by simpa using hc)
    · have hc2 : used.contains l.lid = false := by
        cases hval : used.contains l.lid
        · rfl
        · exact absurd hval hc
      rw [hc2]
      simp only [Bool.not_eq_eq_eq_not, Bool.not_false]
      rw [List.any_eq_true]
      refine ⟨l, List.mem_filter.mpr ⟨hl, by simpa using hc2⟩, by simp⟩
  rw [hfil]
  refine Prod.ext rfl (Prod.ext ?_ ?_)
  · simp
  · simp [List.map_map]
    rfl

theorem contains_lid_any (p : Presentation) (k : Nat) :
    ((p.slides.map (fun s => s.slide_layout_id)).contains k) =
      (p.slides.any (fun s => decide (s.slide_layout_id = k))) := by
  by_cases hmem : k ∈ p.slides.map (fun s => s.slide_layout_id)
  · have h1 : (p.slides.map (fun s => s.slide_layout_id)).contains k = true := by
      simpa using hmem
    rw [h1]
    rcases List.mem_map.mp hmem with ⟨s, hs, he⟩
    exact (List.any_eq_true.mpr ⟨s, hs, by simp [he]⟩).symm
  · have h1 : (p.slides.map (fun s => s.slide_layout_id)).contains k = false := by
      simpa using hmem
    rw [h1]
    symm
    rw [List.any_eq_false]
    intro s hs
    simp only [decide_eq_true_eq]
    intro hcon
    exact hmem (List.mem_map.mpr ⟨s, hs, hcon⟩)

theorem layoutStat_used_any (p : Presentation) (li : Nat) (ll : Layout) :
    (layoutStatFor (buildLayoutUsage p) li ll).is_used =
      p.slides.any (fun s => decide (s.slide_layout_id = ll.lid)) := by
  show (decide (0 < ((usageLookup (buildLayoutUsage p) ll.lid).getD []).length)) = _
  rw [usage_getD]
  by_cases hex : ∃ s ∈ p.slides, s.slide_layout_id = ll.lid
  · rcases hex with ⟨s, hs, he⟩
    have h1 : p.slides.any (fun s => decide (s.slide_layout_id = ll.lid)) = true :=
      List.any_eq_true.mpr ⟨s, hs, by simp [he]⟩
    rw [h1]
    simp only [decide_eq_true_eq, List.length_map, List.length_pos]
    rcases (mem_enum1_snd p.slides s).mp hs with ⟨i, hi⟩
    intro hnil
    have h4 : (i, s) ∈ (enum1 1 p.slides).filter
        (fun is => is.2.slide_layout_id = ll.lid) :=
      List.mem_filter.mpr ⟨hi, by simp [he]⟩
    rw [hnil] at h4
    cases h4
  · have h1 : p.slides.any (fun s => decide (s.slide_layout_id = ll.lid)) = false := by
      rw [List.any_eq_false]
      intro s hs
      simp only [decide_eq_true_eq]
      intro hcon
      exact hex ⟨s, hs, hcon⟩
    rw [h1]
    simp only [decide_eq_false_iff_not, Nat.not_lt, Nat.le_zero, List.length_map]
    rw [List.length_eq_zero, List.filter_eq_nil_iff]
    intro is his
    simp only [decide_eq_true_eq]
    intro hcon
    exact hex ⟨is.2, (mem_enum1_snd p.slides is.2).mpr ⟨is.1, by
      have : (is.1, is.2) = is := rfl
      rw [this]
      exact his⟩, hcon⟩

theorem decide_eq_false_bool (b : Bool) : decide (b = false) = !b := by
  cases b <;> rfl

theorem enum1_filter_snd_length {α : Type} (q : α → Bool) (l : List α) :
    ∀ s, ((enum1 s l).filter (fun x => q x.2)).length = (l.filter q).length := by
  induction l with
  | nil => intro s; rfl
  | cons a t ih =>
    intro s
    simp only [enum1, List.filter_cons]
    cases hq : q a <;> simp [hq, ih (s + 1)]

theorem enum1_map_snd_comp {α β : Type} (f : α → β) (s : Nat) (l : List α) :
    (enum1 s l).map (fun x => f x.2) = l.map f := by
  have h1 : (enum1 s l).map (fun x => f x.2) = ((enum1 s l).map Prod.snd).map f := by
    rw [List.map_map]
    rfl
  rw [h1, enum1_map_snd]

theorem master_unused_count (p : Presentation) (mi : Nat) (mm : Master) :
    ((masterStatFor (buildLayoutUsage p) mi mm).layouts.filter
      (fun ls => ls.is_used = false)).length =
    (mm.layouts.filter (fun l =>
      ! ((p.slides.map (fun s => s.slide_layout_id)).contains l.lid))).length := by
  have hlay : (masterStatFor (buildLayoutUsage p) mi mm).layouts =
      (enum1 1 mm.layouts).map
        (fun il => layoutStatFor (buildLayoutUsage p) il.1 il.2) := rfl
  rw [hlay, List.filter_map, List.length_map]
  have hcong : (enum1 1 mm.layouts).filter
      ((fun ls => decide (ls.is_used = false)) ∘
        (fun il => layoutStatFor (buildLayoutUsage p) il.1 il.2)) =
      (enum1 1 mm.layouts).filter (fun il =>
        ! ((p.slides.map (fun s => s.slide_layout_id)).contains il.2.lid)) := by
    apply List.filter_congr
    intro il _
    show decide ((layoutStatFor (buildLayoutUsage p) il.1 il.2).is_used = false) = _
    rw [layoutStat_used_any p il.1 il.2, decide_eq_false_bool, contains_lid_any]
  rw [hcong, enum1_filter_snd_length
    (fun l => ! ((p.slides.map (fun s => s.slide_layout_id)).contains l.lid)) mm.layouts 1]

theorem length_filter_split {α : Type} (l : List α) (pred : α → Bool) :
    (l.filter pred).length + (l.filter (fun x => ! pred x)).length = l.length := by
  induction l with
  | nil => rfl
  | cons a t ih =>
    simp only [List.filter_cons]
    cases hq : pred a <;> simp [hq] <;> omega

theorem sum_map_add {α : Type} (l : List α) (f g : α → Nat) :
    (l.map (fun x => f x + g x)).sum = (l.map f).sum + (l.map g).sum := by
  induction l with
  | nil => rfl
  | cons a t ih => simp [ih]; omega

/-- C4: `delete_unused_layouts` keeps exactly the slide-referenced layouts
(removing exactly the number flagged unused by `analyze_slide_masters`),
and saves to a fresh `_cleaned` output path, leaving the input path's disk
content unchanged. -/
theorem claim_C4 (p : Presentation) (path : PathName)
    (h : ((p.masters.flatMap (fun m => m.layouts)).map (fun l => l.lid)).Nodup) :
    C4Concl p path := by
  have hms : ∀ m ∈ p.masters, (m.layouts.map (fun l => l.lid)).Nodup := by
    intro m hm
    exact ((sublist_flatMap_of_mem p.masters (fun m => m.layouts) m hm).map _).nodup h
  have hstep : p.masters.map (deleteFromMaster (p.slides.map (fun s => s.slide_layout_id))) =
      p.masters.map (fun m =>
        ({ m with layouts := m.layouts.filter (fun l =>
            (p.slides.map (fun s => s.slide_layout_id)).contains l.lid) },
         (m.layouts.filter (fun l =>
            ! (p.slides.map (fun s => s.slide_layout_id)).contains l.lid)).length,
         ((m.layouts.filter (fun l =>
            ! (p.slides.map (fun s => s.slide_layout_id)).contains l.lid)).map
              (fun l => pictureBytes l.shapes)).sum)) :=
    List.map_congr_left (fun m hm => deleteFromMaster_eq _ m (hms m hm))
  have hnp : (delete_unused_layouts p path).2.2.2.masters =
      p.masters.map (fun m =>
        { m with layouts := m.layouts.filter (fun l =>
            p.slides.any (fun s => decide (s.slide_layout_id = l.lid))) }) := by
    show ((p.masters.map (deleteFromMaster (p.slides.map (fun s => s.slide_layout_id)))).map
      (fun r => r.1)) = _
    rw [hstep, List.map_map]
    apply List.map_congr_left
    intro m _
    show ({ m with layouts := m.layouts.filter (fun l =>
        (p.slides.map (fun s => s.slide_layout_id)).contains l.lid) } : Master) = _
    congr 1
    apply List.filter_congr
    intro l _
    exact contains_lid_any p l.lid
  have hcnt : (delete_unused_layouts p path).1 =
      (p.masters.map (fun m => (m.layouts.filter (fun l =>
        ! (p.slides.map (fun s => s.slide_layout_id)).contains l.lid)).length)).sum := by
    show (p.masters.map (deleteFromMaster (p.slides.map (fun s => s.slide_layout_id)))).foldl
      (fun acc r => acc + r.2.1) 0 = _
    rw [foldl_add_init (fun (r : Master × Nat × Nat) => r.2.1)
      (p.masters.map (deleteFromMaster (p.slides.map (fun s => s.slide_layout_id)))) 0,
      Nat.zero_add, List.map_map]
    apply congrArg List.sum
    apply List.map_congr_left
    intro m hm
    show (deleteFromMaster (p.slides.map (fun s => s.slide_layout_id)) m).2.1 = _
    rw [deleteFromMaster_eq _ m (hms m hm)]
  have hrep : (analyze_slide_masters p).unused_layouts =
      (p.masters.map (fun m => (m.layouts.filter (fun l =>
        ! (p.slides.map (fun s => s.slide_layout_id)).contains l.lid)).length)).sum := by
    show ((enum1 1 p.masters).map (fun im => masterStatFor (buildLayoutUsage p) im.1 im.2)).foldl
      (fun acc ms => acc + (ms.layouts.filter (fun ls => ls.is_used = false)).length) 0 = _
    rw [foldl_add_init (fun (ms : MasterMediaStats) =>
        (ms.layouts.filter (fun ls => ls.is_used = false)).length)
      ((enum1 1 p.masters).map (fun im => masterStatFor (buildLayoutUsage p) im.1 im.2)) 0,
      Nat.zero_add, List.map_map]
    have hpt : (enum1 1 p.masters).map
        ((fun ms => (ms.layouts.filter (fun ls => ls.is_used = false)).length) ∘
          (fun im => masterStatFor (buildLayoutUsage p) im.1 im.2)) =
        (enum1 1 p.masters).map (fun im => (im.2.layouts.filter (fun l =>
          ! (p.slides.map (fun s => s.slide_layout_id)).contains l.lid)).length) := by
      apply List.map_congr_left
      intro im _
      exact master_unused_count p im.1 im.2
    rw [hpt, enum1_map_snd_comp (fun mm => (mm.layouts.filter (fun l =>
      ! (p.slides.map (fun s => s.slide_layout_id)).contains l.lid)).length) 1 p.masters]
  have hlensum : ((delete_unused_layouts p path).2.2.2.masters.flatMap
      (fun m => m.layouts)).length + (delete_unused_layouts p path).1 =
      (p.masters.flatMap (fun m => m.layouts)).length := by
    rw [hnp, hcnt, List.length_flatMap, List.length_flatMap, List.map_map, ← sum_map_add]
    apply congrArg List.sum
    apply List.map_congr_left
    intro m _
    show (m.layouts.filter (fun l =>
        p.slides.any (fun s => decide (s.slide_layout_id = l.lid)))).length +
      (m.layouts.filter (fun l =>
        ! (p.slides.map (fun s => s.slide_layout_id)).contains l.lid)).length =
      m.layouts.length
    have hflt : m.layouts.filter (fun l =>
        p.slides.any (fun s => decide (s.slide_layout_id = l.lid))) =
        m.layouts.filter (fun l =>
          (p.slides.map (fun s => s.slide_layout_id)).contains l.lid) := by
      apply List.filter_congr
      intro l _
      exact (contains_lid_any p l.lid).symm
    rw [hflt]
    exact length_filter_split m.layouts
      (fun l => (p.slides.map (fun s => s.slide_layout_id)).contains l.lid)
  have hne : cleanedPath path ≠ path := by
    intro hcontra
    have h2 := congrArg PathName.stem hcontra
    simp only [cleanedPath] at h2
    have h3 := congrArg String.length h2
    rw [String.length_append] at h3
    have h4 : ("_cleaned" : String).length = 8 := by decide
    omega
  unfold C4Concl
  refine ⟨hnp, ?_, ?_, ?_, hne, ?_⟩
  · rw [hcnt, hrep]
  · omega
  · intro m hm l hl hex
    rcases hex with ⟨s, hs, hse⟩
    refine ⟨{ m with layouts := m.layouts.filter (fun l =>
        p.slides.any (fun s => decide (s.slide_layout_id = l.lid))) }, ?_, ?_⟩
    · rw [hnp]
      exact List.mem_map_of_mem _ hm
    · exact List.mem_filter.mpr ⟨hl, List.any_eq_true.mpr ⟨s, hs, by simp [hse]⟩⟩
  · intro disk pr
    show saveToDisk disk (cleanedPath path) pr path = disk path
    unfold saveToDisk
    rw [if_neg]
    intro hcontra
    exact hne hcontra.symm

/-- Witness for C4 at the concrete `presW` (layout 10 used, layout 11 unused). -/
theorem claim_C4_witness :
    (((presW.masters.flatMap (fun m => m.layouts)).map (fun l => l.lid)).Nodup) ∧
    C4Concl presW pathW :=
  ⟨by decide, claim_C4 presW pathW (by decide)⟩

/-! ## Claim C6 -/

theorem flatMap_if {α β : Type} (l : List α) (pr : α → Bool) (g : α → List β) :
    (l.flatMap (fun x => if pr x = true then g x else [])) = (l.filter pr).flatMap g := by
  induction l with
  | nil => rfl
  | cons a t ih =>
    rw [List.flatMap_cons, List.filter_cons]
    cases hp : pr a <;> simp [hp, ih]

theorem occsL_imgRegEvents (p : Presentation) (b : List Nat) :
    occsL (imgRegEvents p) (.blobKey b) =
      (occsImg p b).map (fun e => (e.idx,
        ({ key := .blobKey e.img.blob, type := "image", size_bytes := e.img.blob.length,
           content_type := e.img.content_type, reg_filename := none } : RefEvent))) := by
  unfold occsL imgRegEvents occsImg
  rw [List.filter_map]
  congr 1
  apply List.filter_congr
  intro e _
  show decide ((MediaKey.blobKey e.img.blob) = MediaKey.blobKey b) = decide (e.img.blob = b)
  exact decide_eq_decide.mpr (by simp)

theorem regLookup_imgReg (p : Presentation) (b : List Nat) (e0 : ImgEvent)
    (rest : List ImgEvent) (hocc : occsImg p b = e0 :: rest) :
    regLookup ((imgRegEvents p).foldl regStep []) (.blobKey b) =
      some { size := e0.img.blob.length, type := "image",
             content_type := e0.img.content_type, filename := none,
             slides := (occsImg p b).map (fun e => e.idx), first_slide := e0.idx } := by
  have h1 := regLookup_foldl (imgRegEvents p) [] (.blobKey b)
  simp only [regLookup] at h1
  rw [h1]
  unfold regEntryFor
  rw [occsL_imgRegEvents p b, hocc]
  simp [List.map_map]

theorem firstSlideImg_of (p : Presentation) (b : List Nat) (e0 : ImgEvent)
    (rest : List ImgEvent) (hocc : occsImg p b = e0 :: rest) :
    firstSlideImg p b = some e0.idx := by
  unfold firstSlideImg
  rw [hocc]
  rfl

theorem ctFirstImg_of (p : Presentation) (b : List Nat) (e0 : ImgEvent)
    (rest : List ImgEvent) (hocc : occsImg p b = e0 :: rest) :
    ctFirstImg p b = e0.img.content_type := by
  unfold ctFirstImg
  rw [hocc]
  rfl

theorem mem_occsImg_self (p : Presentation) (e : ImgEvent) (he : e ∈ imgEvents p) :
    e ∈ occsImg p e.img.blob := by
  unfold occsImg
  exact List.mem_filter.mpr ⟨he, by simp⟩

/-- The optimization pass, re-expressed through the derived first-slide
bookkeeping: exactly the appearances on their asset's first slide are
analyzed, then the results are sorted. -/
theorem analyzeOpt_eq_filtered (decode : PILDecoder) (p : Presentation) :
    analyze_optimization_opportunities decode p =
      (((imgEvents p).filter (fun e => firstSlideImg p e.img.blob = some e.idx)).flatMap
        (analyzeOneAppearance decode p)).mergeSort oppLE := by
  simp only [analyze_optimization_opportunities]
  congr 1
  rw [← flatMap_if (imgEvents p)
    (fun e => decide (firstSlideImg p e.img.blob = some e.idx))
    (analyzeOneAppearance decode p)]
  rw [List.flatMap_def, List.flatMap_def]
  apply congrArg List.flatten
  apply List.map_congr_left
  intro e he
  cases hocck : occsImg p e.img.blob with
  | nil =>
    have h2 := mem_occsImg_self p e he
    rw [hocck] at h2
    cases h2
  | cons e0 rest =>
    rw [regLookup_imgReg p e.img.blob e0 rest hocck]
    rw [firstSlideImg_of p e.img.blob e0 rest hocck]
    by_cases hfe : e0.idx = e.idx
    · show (if decide (e0.idx = e.idx) = false then ([] : List OptimizationOpportunity)
        else
          match decode e.img.blob with
          | none => []
          | some pil =>
            analyze_image_optimization e.img.blob.length pil.format e0.img.content_type
              (get_image_dimensions pil.width pil.height e.width e.height) e.idx e.title
              (decide (1 < ((occsImg p e.img.blob).map (fun e2 => e2.idx)).length))) =
        (if decide (some e0.idx = some e.idx) = true then analyzeOneAppearance decode p e
          else [])
      rw [if_neg (by simp [hfe]), if_pos (by simp [hfe])]
      unfold analyzeOneAppearance
      rw [ctFirstImg_of p e.img.blob e0 rest hocck]
      cases decode e.img.blob with
      | none => rfl
      | some pil => simp [List.length_map]
    · show (if decide (e0.idx = e.idx) = false then ([] : List OptimizationOpportunity)
        else
          match decode e.img.blob with
          | none => []
          | some pil =>
            analyze_image_optimization e.img.blob.length pil.format e0.img.content_type
              (get_image_dimensions pil.width pil.height e.width e.height) e.idx e.title
              (decide (1 < ((occsImg p e.img.blob).map (fun e2 => e2.idx)).length))) =
        (if decide (some e0.idx = some e.idx) = true then analyzeOneAppearance decode p e
          else [])
      rw [if_pos (by simp [hfe]), if_neg (by simp [hfe])]

theorem oppLE_trans : ∀ (a b c : OptimizationOpportunity),
    oppLE a b = true → oppLE b c = true → oppLE a c = true := by
  intro a b c hab hbc
  simp only [oppLE, decide_eq_true_eq] at hab hbc ⊢
  omega

theorem oppLE_total : ∀ (a b : OptimizationOpportunity), oppLE a b || oppLE b a := by
  intro a b
  simp only [oppLE, decide_eq_true_eq, Bool.or_eq_true]
  omega

/-- C6 (amended): `analyze_optimization_opportunities` analyzes exactly the
picture appearances that sit on their asset's first slide (appearances on
later slides are skipped; an asset placed several times on its first slide
is analyzed once per such appearance), and the result is globally sorted by
`savings_bytes` descending. -/
theorem claim_C6 (decode : PILDecoder) (p : Presentation) : C6Concl decode p := by
  unfold C6Concl
  rw [analyzeOpt_eq_filtered]
  refine ⟨List.mergeSort_perm _ _, ?_⟩
  have hs := List.sorted_mergeSort oppLE_trans oppLE_total
    (((imgEvents p).filter (fun e => firstSlideImg p e.img.blob = some e.idx)).flatMap
      (analyzeOneAppearance decode p))
  exact hs.imp (fun h => by simpa [oppLE] using h)

/-- Counterexample for C6 as stated: in `presC` the single image asset
appears twice on slide 1 (its first slide), and the analyzer emits two
`oversized_resolution` recommendations for that one asset. -/
theorem claim_C6_counterexample :
    ((analyze_optimization_opportunities decodeC presC).map
      (fun o => (o.slide_index, o.opportunity_type)) =
      [(1, "oversized_resolution"), (1, "oversized_resolution")]) ∧
    (imgEvents presC).map (fun e => e.img.blob) = [[7], [7]] := by
  constructor
  · rw [analyzeOpt_eq_filtered]
    have hev : imgEvents presC =
        [{ idx := 1, title := some "T", width := 914400, height := 914400, img := imgC },
         { idx := 1, title := some "T", width := 914400, height := 914400, img := imgC }] := by
      decide
    have hflt : (imgEvents presC).filter
        (fun e => firstSlideImg presC e.img.blob = some e.idx) = imgEvents presC := by
      decide
    have hone : analyzeOneAppearance decodeC presC
        { idx := 1, title := some "T", width := 914400, height := 914400, img := imgC } =
        [{ slide_index := 1, slide_title := some "T",
           opportunity_type := "oversized_resolution", current_bytes := 1,
           potential_bytes := 0, savings_bytes := 1,
           current_dimensions := "1000x1000", display_dimensions := "96x96",
           recommended_dimensions := "192x192", current_format := "JPEG",
           recommended_format := "JPEG", severity := "high", is_shared := true }] := by
      have hocc : occsImg presC imgC.blob =
          [{ idx := 1, title := some "T", width := 914400, height := 914400, img := imgC },
           { idx := 1, title := some "T", width := 914400, height := 914400, img := imgC }] := by
        decide
      unfold analyzeOneAppearance
      show (match decodeC imgC.blob with
        | none => []
        | some pil =>
            analyze_image_optimization imgC.blob.length pil.format (ctFirstImg presC imgC.blob)
              (get_image_dimensions pil.width pil.height 914400 914400) 1 (some "T")
              (decide (1 < (occsImg presC imgC.blob).length))) = _
      rw [ctFirstImg_of presC imgC.blob _ _ hocc, hocc]
      show analyze_image_optimization 1 (some "JPEG") imgC.content_type
          (get_image_dimensions 1000 1000 914400 914400) 1 (some "T") true = _
      have hdims : get_image_dimensions 1000 1000 914400 914400 =
          { pixel_width := 1000, pixel_height := 1000, display_width_px := 96,
            display_height_px := 96, resolution_ratio := 125 / 12 } := by
        unfold get_image_dimensions truncQ
        norm_num
      rw [hdims]
      unfold analyze_image_optimization truncQ
      norm_num
      exact ⟨rfl, rfl, rfl⟩
    rw [hflt, hev]
    simp only [List.flatMap_cons, List.flatMap_nil, hone, List.append_nil]
    rw [List.mergeSort_of_sorted (by simp [oppLE])]
    rfl
  · decide
